import Mathlib

/-
Verification development for the express-web-proxy repository (src/app.js).

The JavaScript source is shallowly embedded: JS strings become `List Char`
(abbreviated `Str`) or `String` at the interface, JS regular expressions are
modelled by a small backtracking matcher `matchRE` that implements the
ECMAScript semantics needed by the source's patterns (ordered alternation,
greedy quantifiers with backtracking, case-insensitive matching for the `i`
flag, capture groups, backreferences, lookahead), and the stateful request
pipeline becomes explicit state passing.  Platform functions used by the
source (JSON.parse, Headers.set, Number.parseInt, String.prototype.trim,
Object.fromEntries, ...) are modelled from their ECMAScript behaviour.

All definitions are structurally recursive so that concrete runs reduce
inside the kernel; unbounded regex repetition `a*` is therefore represented
by `starN n a`, a greedy bounded repetition.  For every quantified
subpattern of the source's regexes each iteration consumes at least one
character (delimiters, character classes and the delimiter backreference
never match the empty string), so `starN n a` with `n` at least the length
of the remaining input matches exactly like ECMAScript `a*`.
-/

namespace Proxy

abbrev Str := List Char

def ofStr (l : Str) : String := String.mk l

/-- JS whitespace test (`\s` for the ASCII range used by the source's data). -/
def isSpaceJS (c : Char) : Bool :=
  c = ' ' || c = '\t' || c = '\n' || c = '\x0d' || c = '\x0c' || c = '\x0b'

/-- model of String.prototype.trim. -/
def strTrim (s : Str) : Str :=
  ((s.dropWhile isSpaceJS).reverse.dropWhile isSpaceJS).reverse

/-- model of String.prototype.toLowerCase for the ASCII data handled here. -/
def lowerStr (s : Str) : Str := s.map Char.toLower

/-- case-insensitive character comparison (the regex `i` flag). -/
def ciEq (a b : Char) : Bool := a.toLower = b.toLower

/-- split on a single separator character (model of String.prototype.split). -/
def splitCharList (sep : Char) : Str → List Str
  | [] => [[]]
  | c :: rest =>
    let r := splitCharList sep rest
    if c = sep then [] :: r
    else
      match r with
      | [] => [[c]]
      | h :: t => (c :: h) :: t

/-- join with a separator string (model of Array.prototype.join). -/
def joinSep (sep : Str) : List Str → Str
  | [] => []
  | [x] => x
  | x :: xs => x ++ sep ++ joinSep sep xs

/-- true iff `pat` occurs as a contiguous substring (String.prototype.includes). -/
def containsSub (s pat : Str) : Bool :=
  (List.range (s.length + 1)).any (fun i => (s.drop i).take pat.length = pat)

/-- replace the first occurrence of `pat` by `rep` (String.prototype.replace
with a plain-string pattern). -/
def replaceOnce (s pat rep : Str) : Str :=
  match (List.range (s.length + 1)).find? (fun i => (s.drop i).take pat.length = pat) with
  | none => s
  | some i => s.take i ++ rep ++ s.drop (i + pat.length)

/-- model of Number.parseInt on a trimmed string: optional sign, then a
hexadecimal literal (`0x`/`0X` prefix) or a maximal run of decimal digits;
`none` models NaN. -/
def parseIntJS (s : Str) : Option Int :=
  let core : Str → Option Nat := fun t =>
    match t with
    | '0' :: x :: rest =>
      if x = 'x' || x = 'X' then
        let ds := rest.takeWhile (fun c => c.isDigit || ('a' ≤ c.toLower && c.toLower ≤ 'f'))
        if ds = [] then none
        else some (ds.foldl (fun a c =>
          a * 16 + (if c.isDigit then c.toNat - 48 else c.toLower.toNat - 87)) 0)
      else
        let ds := t.takeWhile Char.isDigit
        some (ds.foldl (fun a c => a * 10 + (c.toNat - 48)) 0)
    | t =>
      let ds := t.takeWhile Char.isDigit
      if ds = [] then none
      else some (ds.foldl (fun a c => a * 10 + (c.toNat - 48)) 0)
  match s with
  | '-' :: rest => (core rest).map (fun n => -(n : Int))
  | '+' :: rest => (core rest).map (fun n => (n : Int))
  | t => (core t).map (fun n => (n : Int))

/-! ## Regular-expression engine

A small backtracking matcher sufficient for the ECMAScript patterns in
src/app.js.  Alternation is ordered, quantifiers are greedy and backtrack,
literals and backreferences compare case-insensitively (the source's
regexes carry the `i` flag), and `look` is a zero-width positive lookahead.
The one negative lookbehind in `urlReplacementRegex` is the very first
element of that pattern and is handled by the string scanner
(`lookbehindOk`) before the rest of the pattern is tried.  -/

inductive RE where
  | eps : RE
  | cls (p : Char → Bool) : RE
  | lit (s : Str) : RE
  | seq (a b : RE) : RE
  | alt (a b : RE) : RE
  | opt (a : RE) : RE
  | grp (i : Nat) (a : RE) : RE
  | bref (i : Nat) : RE
  | look (a : RE) : RE
deriving Inhabited

abbrev Caps := List (Nat × Str)

def capGet (caps : Caps) (i : Nat) : Option Str :=
  match caps.find? (fun p => p.1 = i) with
  | some p => some p.2
  | none => none

/-- match a literal case-insensitively against the front of the input,
returning the remaining input. -/
def ciTake : Str → Str → Option Str
  | [], s => some s
  | _, [] => none
  | a :: as, b :: bs => if ciEq a b then ciTake as bs else none

abbrev MRes := Option (Str × Caps)

def matchRE : RE → Str → Caps → (Str → Caps → MRes) → MRes
  | .eps, s, caps, k => k s caps
  | .cls p, s, caps, k =>
    match s with
    | [] => none
    | c :: rest => if p c then k rest caps else none
  | .lit l, s, caps, k =>
    match ciTake l s with
    | some rest => k rest caps
    | none => none
  | .seq a b, s, caps, k =>
    matchRE a s caps (fun s2 c2 => matchRE b s2 c2 k)
  | .alt a b, s, caps, k =>
    (matchRE a s caps k).orElse (fun _ => matchRE b s caps k)
  | .opt a, s, caps, k =>
    (matchRE a s caps k).orElse (fun _ => k s caps)
  | .grp i a, s, caps, k =>
    matchRE a s caps (fun s2 c2 => k s2 ((i, s.take (s.length - s2.length)) :: c2))
  | .bref i, s, caps, k =>
    match capGet caps i with
    | none => k s caps
    | some l =>
      match ciTake l s with
      | some rest => k rest caps
      | none => none
  | .look a, s, caps, k =>
    match matchRE a s caps (fun s2 c2 => some (s2, c2)) with
    | some _ => k s caps
    | none => none

/-- greedy `a{0,n}`: longest first, with backtracking. -/
def repUpTo (a : RE) : Nat → RE
  | 0 => .eps
  | n + 1 => .opt (.seq a (repUpTo a n))

/-- `a{m}`: exactly m copies. -/
def repExact (a : RE) : Nat → RE
  | 0 => .eps
  | m + 1 => .seq a (repExact a m)

/-- greedy `a{m,n}`. -/
def repRE (a : RE) (m n : Nat) : RE := .seq (repExact a m) (repUpTo a (n - m))

/-- greedy `a*`, exact for bodies that consume at least one character per
iteration whenever `n` is at least the length of the remaining input. -/
def starN (n : Nat) (a : RE) : RE := repUpTo a n

/-- greedy `a+` under the same convention. -/
def plusN (n : Nat) (a : RE) : RE := .seq a (starN n a)

/-! ## The URL grammar regexes of src/app.js (lines 14-84)

Each definition mirrors the JS regex of the same name; `n` is the repetition
bound standing for `*`/`+` as explained above.  Character classes are
predicates; the `i` flag is reflected by case-closed classes and
case-insensitive literals.  Named capture groups are numbered: 1 protocol,
2 delimiter, 3 userInfo, 4 host, 5 port, 6 path, 7 query, 8 fragment.  -/

def isWordC (c : Char) : Bool := c.isAlpha || c.isDigit || c = '_'

/-- the symbol part of the reg-name class `[\w~.\-!$&'()*+,;=%]`. -/
def isRegSym (c : Char) : Bool :=
  c = '~' || c = '.' || c = '-' || c = '!' || c = '$' || c = '&' || c = '\'' ||
  c = '(' || c = ')' || c = '*' || c = '+' || c = ',' || c = ';' || c = '=' || c = '%'

def regNameChar (c : Char) : Bool := isWordC c || isRegSym c

def userInfoChar (c : Char) : Bool := regNameChar c || c = ':'

def pathChar (c : Char) : Bool := userInfoChar c || c = '@'

def queryChar (c : Char) : Bool := pathChar c || c = '/' || c = '?'

/-- the ipvFuture tail class `[\w~.\-!$&'()*+,;=:]` (no `%`, with `:`). -/
def ipvFutureChar (c : Char) : Bool :=
  isWordC c || (isRegSym c && c ≠ '%') || c = ':'

def hexC (c : Char) : Bool := c.isDigit || ('a' ≤ c.toLower && c.toLower ≤ 'f')

def digitC (c : Char) : Bool := c.isDigit

/-- `(?<regName>[\w~.\-!$&'()*+,;=%]+)` (the capture is unused downstream). -/
def urlRegName (n : Nat) : RE := plusN n (.cls regNameChar)

/-- one octet `(?:25[0-5]|2[0-4]\d|1?\d{1,2})`. -/
def ipv4Octet : RE :=
  .alt (.seq (.lit ['2', '5']) (.cls (fun c => '0' ≤ c && c ≤ '5')))
    (.alt (.seq (.lit ['2']) (.seq (.cls (fun c => '0' ≤ c && c ≤ '4')) (.cls digitC)))
      (.seq (.opt (.lit ['1'])) (repRE (.cls digitC) 1 2)))

/-- one dotted octet `(?:\.25[0-5]|\.2[0-4]\d|\.1?\d{1,2})`. -/
def ipv4DotOctet : RE :=
  .alt (.seq (.lit ['.', '2', '5']) (.cls (fun c => '0' ≤ c && c ≤ '5')))
    (.alt (.seq (.lit ['.', '2']) (.seq (.cls (fun c => '0' ≤ c && c ≤ '4')) (.cls digitC)))
      (.seq (.lit ['.']) (.seq (.opt (.lit ['1'])) (repRE (.cls digitC) 1 2))))

/-- `ipv4Regex` body (the named group is not consulted downstream). -/
def ipv4Regex : RE := .seq ipv4Octet (repExact ipv4DotOctet 3)

def h16 : RE := repRE (.cls hexC) 1 4

/-- `ls32 = (?:h16:h16|IPv4)` as assembled in ipv6Regex. -/
def ls32 : RE := .alt (.seq h16 (.seq (.lit [':']) h16)) ipv4Regex

/-- the counting lookahead of ipv6Regex, with `endingChar` = `]`:
`(?=:*(?:[\da-f]{1,4}:+){0,5}[\da-f]{1,4}(?::[\da-f]{1,4}]|\.))`. -/
def ipv6CountLook (n : Nat) : RE :=
  .look (.seq (starN n (.lit [':']))
    (.seq (repRE (.seq h16 (plusN n (.lit [':']))) 0 5)
      (.seq h16
        (.alt (.seq (.lit [':']) (.seq h16 (.lit [']']))) (.lit ['.'])))))

/-- `ipv6Regex(']')`: the full alternation plus the trailing `(?=])`. -/
def ipv6Regex (n : Nat) : RE :=
  .seq
    (.alt
      (.seq
        (.alt
          (.seq (ipv6CountLook n)
            (.seq (.alt (repRE (.seq h16 (.lit [':'])) 1 5) (.lit [':']))
              (.seq (.lit [':']) (repRE (.seq h16 (.lit [':'])) 0 5))))
          (repExact (.seq h16 (.lit [':'])) 6))
        ls32)
      (.alt
        (.seq (.opt (.seq (repRE (.seq h16 (.lit [':'])) 0 5) h16))
          (.seq (.lit [':', ':']) h16))
        (.seq (.opt (.seq (repRE (.seq h16 (.lit [':'])) 0 6) h16))
          (.lit [':', ':']))))
    (.look (.lit [']']))

/-- `(?<ipvFuture>v[\da-fA-F]+\.[\w~.\-!$&'()*+,;=:]+)`. -/
def ipvFutureRegex (n : Nat) : RE :=
  .seq (.lit ['v'])
    (.seq (plusN n (.cls hexC)) (.seq (.lit ['.']) (plusN n (.cls ipvFutureChar))))

/-- `(?<protocol>https?:)` as group 1. -/
def urlProtocolRegex : RE :=
  .grp 1 (.seq (.lit ['h', 't', 't', 'p']) (.seq (.opt (.lit ['s'])) (.lit [':'])))

/-- `(?<delimiter>\/|\\\/|\\u002f)` as group 2. -/
def urlEscapedDelimiterRegex : RE :=
  .grp 2 (.alt (.lit ['/'])
    (.alt (.lit ['\\', '/']) (.lit ['\\', 'u', '0', '0', '2', 'f'])))

/-- `(?<userInfo>[\w~.\-!$&'()*+,;=%:]*@)` as group 3. -/
def urlUserInfoRegex (n : Nat) : RE :=
  .grp 3 (.seq (starN n (.cls userInfoChar)) (.lit ['@']))

/-- `(?<host>\[ipv6\]|\[ipvFuture\]|ipv4|regName)` as group 4. -/
def urlHostRegex (n : Nat) : RE :=
  .grp 4 (.alt (.seq (.lit ['[']) (.seq (ipv6Regex n) (.lit [']'])))
    (.alt (.seq (.lit ['[']) (.seq (ipvFutureRegex n) (.lit [']'])))
      (.alt ipv4Regex (urlRegName n))))

/-- `(?<port>:\d*)` as group 5. -/
def urlPortRegex (n : Nat) : RE := .grp 5 (.seq (.lit [':']) (starN n (.cls digitC)))

/-- `(?<path>(?:<delim>[\w~.\-!$&'()*+,;=%:@]*)*)` as group 6, parameterised by
the delimiter regex exactly as `urlPathRegexSource` is parameterised. -/
def urlPathRegex (n : Nat) (delim : RE) : RE :=
  .grp 6 (starN n (.seq delim (starN n (.cls pathChar))))

/-- `(?<query>\?[\w~.\-!$&'()*+,;=%:@/?]*)` as group 7. -/
def urlQueryRegex (n : Nat) : RE := .grp 7 (.seq (.lit ['?']) (starN n (.cls queryChar)))

/-- `(?<fragment>#[\w~.\-!$&'()*+,;=%:@/?]*)` as group 8. -/
def urlFragmentRegex (n : Nat) : RE := .grp 8 (.seq (.lit ['#']) (starN n (.cls queryChar)))

/-- the body of `urlReplacementRegex` after its leading negative lookbehind
(which the scanner checks separately): protocol? delimiter backref userInfo?
host port? path query? fragment?. -/
def urlReplacementRegexBody (n : Nat) : RE :=
  .seq (.opt urlProtocolRegex)
    (.seq urlEscapedDelimiterRegex
      (.seq (.bref 2)
        (.seq (.opt (urlUserInfoRegex n))
          (.seq (urlHostRegex n)
            (.seq (.opt (urlPortRegex n))
              (.seq (urlPathRegex n (.bref 2))
                (.seq (.opt (urlQueryRegex n)) (.opt (urlFragmentRegex n)))))))))

/-- `urlValidationRegex`: `^(?<protocol>https?:)//userInfo?host port? path
query? fragment?$` with a plain `/` path delimiter. -/
def urlValidationRegexBody (n : Nat) : RE :=
  .seq urlProtocolRegex
    (.seq (.lit ['/', '/'])
      (.seq (.opt (urlUserInfoRegex n))
        (.seq (urlHostRegex n)
          (.seq (.opt (urlPortRegex n))
            (.seq (urlPathRegex n (.lit ['/']))
              (.seq (.opt (urlQueryRegex n)) (.opt (urlFragmentRegex n))))))))

/-- `(proxyTarget + url).search(urlValidationRegex) !== -1`: the pattern is
anchored on both sides, so this is a full match of the whole string. -/
def urlValidates (s : Str) : Bool :=
  (matchRE (urlValidationRegexBody (s.length + 1)) s []
    (fun rest _ => if rest = [] then some (rest, []) else none)).isSome

/-! ## The negative lookbehind `(?<!\\|xmlns\s*=\s*\S{0,6})`

Evaluated against the reversed prefix of the input before the match start.
The first branch blocks a match directly preceded by a backslash; the second
blocks a start position at which `xmlns` `\s*` `=` `\s*` followed by zero to
six non-space characters ends (case-insensitively, `i` flag).  -/

def ciListEq (a b : Str) : Bool :=
  a.length = b.length && (a.zip b).all (fun p => ciEq p.1 p.2)

/-- does `xmlns\s*=\s*\S{0,6}` match ending exactly at the position whose
reversed prefix is `rpre`? -/
def xmlnsEndsHere (rpre : Str) : Bool :=
  (List.range 7).any (fun k =>
    let t := rpre.take k
    t.length = k && t.all (fun c => ¬ isSpaceJS c) &&
      (let r1 := (rpre.drop k).dropWhile isSpaceJS
       match r1 with
       | '=' :: r2 =>
         ciListEq (((r2.dropWhile isSpaceJS).take 5).reverse) ['x', 'm', 'l', 'n', 's']
       | _ => false))

def lookbehindOk (rpre : Str) : Bool :=
  ¬ (rpre.head? = some '\\') && ¬ xmlnsEndsHere rpre

/-! ## injectProxyTarget (src/app.js lines 251-267) -/

/-- the replacement template of `injectProxyTarget` (lines 254-261), applied
to the capture groups of one match.  `groups.protocol?.replace(':', '.') ||
'http.'` and the `|| ''` defaults are modelled on the captures.  -/
def buildReplacement (proxyDomain : Str) (caps : Caps) : Str :=
  let delim := (capGet caps 2).getD []
  let protoPart :=
    match capGet caps 1 with
    | some p => replaceOnce p [':'] ['.']
    | none => ['h', 't', 't', 'p', '.']
  ['h', 't', 't', 'p', ':'] ++ delim ++ delim ++ proxyDomain ++ delim ++
    protoPart ++ (capGet caps 3).getD [] ++ (capGet caps 4).getD [] ++
    (capGet caps 5).getD [] ++ (capGet caps 6).getD [] ++
    (capGet caps 7).getD [] ++ (capGet caps 8).getD []

/-- global scan-and-replace of `urlReplacementRegex` over the input, as
`String.prototype.replace` with the `g` flag: leftmost matches, replaced text
not rescanned, scanning resumes after each match.  `rpre` is the reversed
prefix already passed (for the lookbehind).  The pattern cannot match the
empty string (the doubled delimiter consumes input); the guard keeping the
recursion decreasing treats a hypothetical empty match as no match. -/
def scanReplace (proxyDomain : Str) (re : RE) : Nat → Str → Str → Str → Str
  | 0, _, s, acc => acc ++ s
  | _ + 1, _, [], acc => acc
  | fuel + 1, rpre, c :: rest, acc =>
    let s := c :: rest
    let tryMatch : MRes :=
      if lookbehindOk rpre then
        matchRE re s [] (fun r2 c2 => some (r2, c2))
      else none
    match tryMatch with
    | some (s2, caps) =>
      if s2.length < s.length then
        let matched := s.take (s.length - s2.length)
        scanReplace proxyDomain re fuel (matched.reverse ++ rpre) s2
          (acc ++ buildReplacement proxyDomain caps)
      else scanReplace proxyDomain re fuel (c :: rpre) rest (acc ++ [c])
    | none => scanReplace proxyDomain re fuel (c :: rpre) rest (acc ++ [c])

/-- `injectProxyTarget(html, proxyDomain)` (lines 251-267). -/
def injectProxyTarget (html proxyDomain : String) : String :=
  ofStr (scanReplace proxyDomain.data (urlReplacementRegexBody (html.data.length + 1))
    (html.data.length + 1) [] html.data [])

/-! ## parseCookie (src/app.js lines 111-138)

The three regexes of `parseCookie` are deterministic (each quantified class
excludes the character that must follow it), so they are embedded as direct
parsing functions: `parseNameValue` is the anchored
`^\s*(?<name>[^\s;=][^;=]*)=(?<value>[^;]*)` part and `parseAttrs` the
`(?:;(?<attrName>[^;=]*)(?:=(?<attrValue>[^;]+))?)*$` tail of `cookieRegex`.
On a string accepted by `cookieRegex`, the `matchAll(cookieAttrRegex)` pass
the source uses to collect options finds exactly the attributes of that tail
(name and value contain no `;`), so the same list is reused.  -/

def parseNameValue (s : Str) : Option (Str × Str × Str) :=
  let s1 := s.dropWhile isSpaceJS
  match s1 with
  | [] => none
  | c :: cs =>
    if isSpaceJS c || c = ';' || c = '=' then none
    else
      let nameTail := cs.takeWhile (fun d => ¬ (d = ';' || d = '='))
      match cs.drop nameTail.length with
      | '=' :: r2 =>
        let value := r2.takeWhile (fun d => d ≠ ';')
        some (c :: nameTail, value, r2.drop value.length)
      | _ => none

/-- the attribute tail; the fuel is at least `length + 1`, and every step
consumes at least the leading `;`, so the fuel never runs out. -/
def parseAttrs : Nat → Str → Option (List (Str × Option Str))
  | 0, _ => none
  | _ + 1, [] => some []
  | fuel + 1, c :: r =>
    if c = ';' then
      let an := r.takeWhile (fun d => ¬ (d = ';' || d = '='))
      match r.drop an.length with
      | '=' :: r3 =>
        let av := r3.takeWhile (fun d => d ≠ ';')
        if av = [] then none
        else (parseAttrs fuel (r3.drop av.length)).map (fun l => (an, some av) :: l)
      | r2 => (parseAttrs fuel r2).map (fun l => (an, none) :: l)
    else none

/-- a parsed cookie attribute value: a plain string, the result of
Number.parseInt (`none` = NaN), a Date built from the given text, or the
boolean flag for valueless attributes. -/
inductive AttrVal where
  | str (s : String)
  | num (n : Option Int)
  | date (s : String)
  | flag (b : Bool)
deriving DecidableEq, Repr

/-- `.toLowerCase().replace('samesite', 'sameSite').replace('httponly',
'httpOnly')` acts on the first substring occurrence (lines 122-126). -/
def camelAdjust (s : Str) : Str :=
  replaceOnce (replaceOnce s "samesite".data "sameSite".data) "httponly".data "httpOnly".data

/-- one attribute of the matchAll pass (lines 120-134). -/
def processAttr : Str × Option Str → String × AttrVal
  | (an, avOpt) =>
    let attrName := camelAdjust (lowerStr (strTrim an))
    match avOpt with
    | none => (ofStr attrName, .flag true)
    | some av =>
      let attrValue := strTrim av
      if attrName = "maxage".data then ("maxAge", .num (parseIntJS attrValue))
      else if attrName = "expires".data then ("expires", .date (ofStr attrValue))
      else (ofStr attrName, .str (ofStr attrValue))

/-- Object.fromEntries: later duplicate keys overwrite in place. -/
def objInsert (k : String) (v : AttrVal) : List (String × AttrVal) → List (String × AttrVal)
  | [] => [(k, v)]
  | (k0, v0) :: t => if k0 = k then (k0, v) :: t else (k0, v0) :: objInsert k v t

def objFromEntries (l : List (String × AttrVal)) : List (String × AttrVal) :=
  l.foldl (fun acc p => objInsert p.1 p.2 acc) []

structure Cookie where
  name : String
  value : String
  options : List (String × AttrVal)
deriving DecidableEq, Repr

/-- `parseCookie(cookie)` (lines 111-138); `none` models `undefined`. -/
def parseCookie (cookie : String) : Option Cookie :=
  match parseNameValue cookie.data with
  | none => none
  | some (n, v, rest) =>
    match parseAttrs (rest.length + 1) rest with
    | none => none
    | some attrs =>
      some ⟨ofStr (strTrim n), ofStr (strTrim v), objFromEntries (attrs.map processAttr)⟩

/-! ## transformHeadersForRequest (src/app.js lines 148-185) -/

/-- model of Headers.prototype.set: the name is normalised to lower case; an
existing entry is replaced in place, otherwise the pair is appended. -/
def headersSetL (n v : String) : List (String × String) → List (String × String)
  | [] => [(n, v)]
  | (k, w) :: t => if k = n then (k, v) :: t else (k, w) :: headersSetL n v t

def headersSet (hs : List (String × String)) (name value : String) : List (String × String) :=
  headersSetL (ofStr (lowerStr name.data)) value hs

/-- model of Headers.prototype.get (case-insensitive lookup). -/
def headersGet (hs : List (String × String)) (name : String) : Option String :=
  (hs.find? (fun p => lowerStr p.1.data = lowerStr name.data)).map (fun p => p.2)

/-- `trimmed.substring(0, trimmed.indexOf('='))`: the name before the first
`=`, or the empty string when there is no `=` (substring with a negative
end index is empty). -/
def cookieNameOf (trimmed : Str) : Str :=
  if trimmed.any (fun d => d = '=') then trimmed.takeWhile (fun d => d ≠ '=') else []

/-- `/^_+proxyTargets$/`. -/
def isUnderscoreProxyTargets (name : Str) : Bool :=
  match name with
  | '_' :: rest => rest.dropWhile (fun d => d = '_') = "proxyTargets".data
  | _ => false

/-- the per-cookie transformation of the `cookie` header case (lines
163-173): drop `proxyTargets`, strip one `_` from `_+proxyTargets`, keep the
rest (trimmed). -/
def cookieForwardRule (c : Str) : Str :=
  let trimmed := strTrim c
  let name := cookieNameOf trimmed
  if name = "proxyTargets".data then []
  else if isUnderscoreProxyTargets name then trimmed.drop 1
  else trimmed

/-- the whole `cookie` header value transformation (split on `;`, apply the
rule, drop empties, join with `; `). -/
def cookieHeaderForward (value : String) : String :=
  ofStr (joinSep "; ".data
    (((splitCharList ';' value.data).map cookieForwardRule).filter (fun c => c ≠ [])))

/-- one `Object.entries(req.headers)` iteration of lines 151-182. -/
def transformRequestHeaderStep (proxyTarget : String) (acc : List (String × String))
    (e : String × String) : List (String × String) :=
  if e.1 = "host" || e.1 = "origin" then headersSet acc e.1 proxyTarget
  else if e.1 = "content-length" || e.1 = "content-encoding" || e.1 = "transfer-encoding" then
    acc
  else if e.1 = "cookie" then headersSet acc e.1 (cookieHeaderForward e.2)
  else headersSet acc e.1 e.2

/-- `transformHeadersForRequest(req, proxyTarget)` (lines 148-185); the
request headers arrive lower-cased from express. -/
def transformHeadersForRequest (headers : List (String × String)) (proxyTarget : String) :
    List (String × String) :=
  headers.foldl (transformRequestHeaderStep proxyTarget) []

/-- the per-entry effect of `transformHeadersForRequest`, following the
spec's client-to-upstream table: `host`/`origin` replaced by the target,
`content-length`/`content-encoding`/`transfer-encoding` dropped, the
`cookie` value rewritten, everything else forwarded as-is.  The
characterisation theorem equates the source's fold with this map. -/
def transformRequestEntry (pt : String) (e : String × String) : Option (String × String) :=
  if e.1 = "host" || e.1 = "origin" then some (e.1, pt)
  else if e.1 = "content-length" || e.1 = "content-encoding" || e.1 = "transfer-encoding" then
    none
  else if e.1 = "cookie" then some (e.1, cookieHeaderForward e.2)
  else some e

/-! ## transformHeadersForResponse (src/app.js lines 195-242)

`res.cookie` calls are recorded as (name, value) pairs; the cookie options
(the rewritten `domain`, the `encode` function) do not affect any claim and
are elided.  -/

def cspPolicy (proxyTarget : String) : String :=
  "default-src 'self' data: 'unsafe-inline' 'unsafe-eval' https:; " ++
  "script-src 'self' data: 'unsafe-inline' 'unsafe-eval' https: blob:; " ++
  "style-src 'self' data: 'unsafe-inline' https:; " ++
  "img-src 'self' data: https: blob:; " ++
  "font-src 'self' data: https:; " ++
  "connect-src 'self' data: https: wss: blob:; " ++
  "media-src 'self' data: https: blob:; " ++
  "object-src 'self' https:; " ++
  "child-src 'self' https: data: blob:; " ++
  "form-action 'self' https:; " ++
  "report-uri http://" ++ proxyTarget ++ "/debug/csp"

/-- `/^_*proxyTargets$/`. -/
def isStarUnderscoreProxyTargets (name : Str) : Bool :=
  name.dropWhile (fun d => d = '_') = "proxyTargets".data

/-- one header iteration of lines 196-239: state is (headers set so far,
res.cookie calls so far). -/
def transformResponseHeaderStep (proxyTarget : String)
    (st : List (String × String) × List (String × String)) (e : String × String) :
    List (String × String) × List (String × String) :=
  if e.1 = "set-cookie" then
    match parseCookie e.2 with
    | none => st
    | some pc =>
      let newName := if isStarUnderscoreProxyTargets pc.name.data then "_" ++ pc.name else pc.name
      (st.1, st.2 ++ [(newName, pc.value)])
  else if e.1 = "content-security-policy" || e.1 = "content-security-policy-report-only" then
    (headersSet st.1 e.1 (cspPolicy proxyTarget), st.2)
  else if e.1 = "content-length" || e.1 = "content-encoding" ||
      e.1 = "transfer-encoding" || e.1 = "connection" then st
  else (headersSet st.1 e.1 e.2, st.2)

/-- `transformHeadersForResponse(proxyResponse, res, proxyTarget)`: returns
(headers written with res.set, cookies written with res.cookie). -/
def transformHeadersForResponse (proxyHeaders : List (String × String)) (proxyTarget : String) :
    List (String × String) × List (String × String) :=
  let st := proxyHeaders.foldl (transformResponseHeaderStep proxyTarget) ([], [])
  (headersSet st.1 "Access-Control-Allow-Origin" "*", st.2)

/-! ## checkRateLimit (src/app.js lines 10-12 and 277-294) -/

structure RateEntry where
  ip : String
  userAgent : String
  proxyTarget : String
  path : String
  time : Nat
deriving DecidableEq, Repr

def rateLimitWindow : Nat := 3000

def rateLimitCount : Nat := 10

def fpMatches (e : RateEntry) (ip ua pt path : String) : Bool :=
  e.ip = ip && e.userAgent = ua && e.proxyTarget = pt && e.path = path

/-- `checkRateLimit(ip, userAgent, proxyTarget, path)`: push the current
entry, shift entries older than the window off the front, count entries
matching the four-field fingerprint (the current one included), exceeded iff
count > 10.  JS `now - r.time > 3000` on negative differences is false, as
is truncated Nat subtraction.  Returns (exceeded, new queue). -/
def checkRateLimit (recent : List RateEntry) (now : Nat) (ip ua pt path : String) :
    Bool × List RateEntry :=
  let pushed := recent ++ [⟨ip, ua, pt, path, now⟩]
  let remaining := pushed.dropWhile (fun e => decide (rateLimitWindow < now - e.time))
  let count := remaining.countP (fun e => fpMatches e ip ua pt path)
  (decide (rateLimitCount < count), remaining)

/-! ## JSON (model of ECMAScript JSON.parse / JSON.stringify)

`Json.num` stores the numeric lexeme instead of a float; no claim inspects
numbers.  The parse fuel is at least `length + 1` and every recursive call
consumes input, so it never runs out.  -/

inductive Json where
  | null
  | bool (b : Bool)
  | num (lexeme : String)
  | str (s : String)
  | arr (elems : List Json)
  | obj (fields : List (String × Json))
deriving Repr

def lbrace : Char := Char.ofNat 123

def rbrace : Char := Char.ofNat 125

def jsonWs (s : Str) : Str :=
  s.dropWhile (fun c => c = ' ' || c = '\t' || c = '\n' || c = '\x0d')

/-- parse the tail of a JSON string literal (after the opening quote);
returns (content, rest after the closing quote). -/
def jsonStrTail : Nat → Str → Option (Str × Str)
  | 0, _ => none
  | _ + 1, [] => none
  | fuel + 1, c :: r =>
    if c = '\"' then some ([], r)
    else if c = '\\' then
      match r with
      | [] => none
      | e :: r2 =>
        let esc : Option (Char × Str) :=
          if e = '\"' then some ('\"', r2)
          else if e = '\\' then some ('\\', r2)
          else if e = '/' then some ('/', r2)
          else if e = 'b' then some ('\x08', r2)
          else if e = 'f' then some ('\x0c', r2)
          else if e = 'n' then some ('\n', r2)
          else if e = 'r' then some ('\x0d', r2)
          else if e = 't' then some ('\t', r2)
          else if e = 'u' then
            match r2 with
            | h1 :: h2 :: h3 :: h4 :: r3 =>
              if [h1, h2, h3, h4].all hexC then
                let hv : Char → Nat := fun h =>
                  if h.isDigit then h.toNat - 48 else h.toLower.toNat - 87
                some (Char.ofNat (((hv h1 * 16 + hv h2) * 16 + hv h3) * 16 + hv h4), r3)
              else none
            | _ => none
          else none
        match esc with
        | none => none
        | some (ch, r3) => (jsonStrTail fuel r3).map (fun p => (ch :: p.1, p.2))
    else if c.toNat < 32 then none
    else (jsonStrTail fuel r).map (fun p => (c :: p.1, p.2))

/-- parse a JSON number lexeme `-?(0|[1-9]\d*)(\.\d+)?([eE][+-]?\d+)?`; an
incomplete lexeme (as in `1.` or `1e`) leaves the offending character in the
rest, where the surrounding context rejects it, matching JSON.parse. -/
def jsonNum (s : Str) : Option (Str × Str) :=
  let intPart : Str → Option (Str × Str) := fun t =>
    match t with
    | '0' :: r => some (['0'], r)
    | c :: r =>
      if c.isDigit then
        let ds := r.takeWhile Char.isDigit
        some (c :: ds, r.drop ds.length)
      else none
    | [] => none
  let (sign, s1) : Str × Str := match s with
    | '-' :: t => (['-'], t)
    | t => ([], t)
  match intPart s1 with
  | none => none
  | some (ip, r1) =>
    let (fp, r2) : Str × Str := match r1 with
      | '.' :: t =>
        let ds := t.takeWhile Char.isDigit
        if ds = [] then ([], r1) else ('.' :: ds, t.drop ds.length)
      | _ => ([], r1)
    let (ep, r3) : Str × Str := match r2 with
      | e :: t =>
        if e = 'e' || e = 'E' then
          let (sg, t2) : Str × Str := match t with
            | '+' :: u => (['+'], u)
            | '-' :: u => (['-'], u)
            | u => ([], u)
          let ds := t2.takeWhile Char.isDigit
          if ds = [] then ([], r2) else (e :: (sg ++ ds), t2.drop ds.length)
        else ([], r2)
      | [] => ([], r2)
    some (sign ++ ip ++ fp ++ ep, r3)

mutual

/-- parse one JSON value (with surrounding whitespace handled by callers). -/
def jsonVal : Nat → Str → Option (Json × Str)
  | 0, _ => none
  | fuel + 1, s =>
    let s1 := jsonWs s
    match s1 with
    | [] => none
    | c :: r =>
      if c = 'n' then
        match r with
        | 'u' :: 'l' :: 'l' :: r2 => some (.null, r2)
        | _ => none
      else if c = 't' then
        match r with
        | 'r' :: 'u' :: 'e' :: r2 => some (.bool true, r2)
        | _ => none
      else if c = 'f' then
        match r with
        | 'a' :: 'l' :: 's' :: 'e' :: r2 => some (.bool false, r2)
        | _ => none
      else if c = '\"' then
        (jsonStrTail (r.length + 1) r).map (fun p => (.str (ofStr p.1), p.2))
      else if c = '[' then
        let r1 := jsonWs r
        match r1 with
        | ']' :: r2 => some (.arr [], r2)
        | _ =>
          let elems := jsonArrTail fuel r1
          match elems with
          | none => none
          | some (l, r2) => some (.arr l, r2)
      else if c = lbrace then
        let r1 := jsonWs r
        match r1 with
        | b :: r2 =>
          if b = rbrace then some (.obj [], r2)
          else
            match jsonObjTail fuel r1 with
            | none => none
            | some (l, r2) => some (.obj l, r2)
        | [] => none
      else
        (jsonNum s1).map (fun p => (.num (ofStr p.1), p.2))

/-- elements of a non-empty array (positioned at the first element). -/
def jsonArrTail : Nat → Str → Option (List Json × Str)
  | 0, _ => none
  | fuel + 1, s =>
    match jsonVal fuel s with
    | none => none
    | some (v, r) =>
      let r1 := jsonWs r
      match r1 with
      | ']' :: r2 => some ([v], r2)
      | ',' :: r2 =>
        match jsonArrTail fuel r2 with
        | none => none
        | some (l, r3) => some (v :: l, r3)
      | _ => none

/-- members of a non-empty object (positioned at the first member). -/
def jsonObjTail : Nat → Str → Option (List (String × Json) × Str)
  | 0, _ => none
  | fuel + 1, s =>
    let s1 := jsonWs s
    match s1 with
    | '\"' :: r =>
      match jsonStrTail (r.length + 1) r with
      | none => none
      | some (key, r1) =>
        match jsonWs r1 with
        | ':' :: r2 =>
          match jsonVal fuel r2 with
          | none => none
          | some (v, r3) =>
            let r4 := jsonWs r3
            match r4 with
            | ',' :: r5 =>
              match jsonObjTail fuel r5 with
              | none => none
              | some (l, r6) => some ((ofStr key, v) :: l, r6)
            | b :: r5 =>
              if b = rbrace then some ([(ofStr key, v)], r5) else none
            | [] => none
        | _ => none
    | _ => none

end

/-- JSON.parse: one value, only whitespace may remain. -/
def jsonParse (s : Str) : Option Json :=
  match jsonVal (s.length + 1) s with
  | none => none
  | some (v, rest) => if jsonWs rest = [] then some v else none

/-- escape for JSON.stringify string output. -/
def jsonEscapeC (c : Char) : Str :=
  if c = '\"' then ['\\', '\"']
  else if c = '\\' then ['\\', '\\']
  else if c = '\n' then ['\\', 'n']
  else if c = '\x0d' then ['\\', 'r']
  else if c = '\t' then ['\\', 't']
  else if c = '\x08' then ['\\', 'b']
  else if c = '\x0c' then ['\\', 'f']
  else if c.toNat < 32 then
    let hx : Nat → Char := fun n => if n < 10 then Char.ofNat (48 + n) else Char.ofNat (87 + n - 10)
    ['\\', 'u', '0', '0', hx (c.toNat / 16), hx (c.toNat % 16)]
  else [c]

def jsonQuote (s : String) : Str :=
  '\"' :: (s.data.flatMap jsonEscapeC) ++ ['\"']

/-- JSON.stringify; the fuel bounds the nesting depth, and callers pass a
bound derived from the length of the string the value was parsed from (a
parsed value's depth is at most that length), so it never runs out.  A
numeric lexeme is emitted as parsed (the float round-trip is not modelled;
no claim touches numbers). -/
def jsonStringify : Nat → Json → Str
  | 0, _ => []
  | _ + 1, .null => "null".data
  | _ + 1, .bool true => "true".data
  | _ + 1, .bool false => "false".data
  | _ + 1, .num l => l.data
  | _ + 1, .str s => jsonQuote s
  | fuel + 1, .arr l => '[' :: joinSep [','] (l.map (jsonStringify fuel)) ++ [']']
  | fuel + 1, .obj fields =>
    lbrace :: joinSep [','] (fields.map (fun p => jsonQuote p.1 ++ [':'] ++ jsonStringify fuel p.2)) ++ [rbrace]

/-! ## The request pipeline (src/app.js lines 296-459)

`Resp` models a fetch Response (status, lower-cased headers, and the text
content of the body).  `Env` supplies the collaborators: the network
(`fetchFn`) and the clock (`nowAt`, the instant observed by the i-th rate
limit check of the request).  The request body streams and their tee-ing do
not affect any claim and are elided; `issued` records the (target, url)
pairs for which `fetch` was actually called.  -/

structure Resp where
  status : Nat
  headers : List (String × String)
  body : String
deriving DecidableEq, Repr

/-- Response.ok: status in the inclusive range 200-299. -/
def Resp.ok (r : Resp) : Bool := 200 ≤ r.status && r.status ≤ 299

/-- `new Response(null, { status: 429 })`. -/
def resp429 : Resp := ⟨429, [], ""⟩

structure Req where
  method : String
  url : String
  ip : String
  userAgent : String
  headers : List (String × String)
  proxyTargetsRaw : Option String
deriving DecidableEq, Repr

structure Env where
  fetchFn : String → String → Resp
  nowAt : Nat → Nat

def fallBackDomain : String := "https://www.example.com"

/-- String.prototype.startsWith. -/
def jsStartsWith (s pre : String) : Bool := s.data.take pre.data.length = pre.data

/-- `url.split('?', 2)[0]`. -/
def pathOf (url : String) : String :=
  ofStr ((splitCharList '?' url.data).headD url.data)

/-- `sendBrowserRequest(req, bodyStream, proxyTarget, url)` (lines 306-323):
rate limit first (429 on excess, no fetch), then URL validation (throws),
then the fetch (issued with the transformed headers; recorded in the issued
list).  Returns (thrown-or-returned response, new rate queue, issued). -/
def sendBrowserRequest (env : Env) (req : Req) (attempt : Nat) (recent : List RateEntry)
    (proxyTarget url : String) :
    Except String Resp × List RateEntry × List (String × String) :=
  let path := pathOf url
  let rl := checkRateLimit recent (env.nowAt attempt) req.ip req.userAgent proxyTarget path
  if rl.1 then (.ok resp429, rl.2, [])
  else if ¬ urlValidates (proxyTarget.data ++ url.data) then
    (.error ("Not a valid url: " ++ proxyTarget ++ url), rl.2, [])
  else (.ok (env.fetchFn proxyTarget url), rl.2, [(proxyTarget, url)])

/-- JS string coercion of a cookie-list element; every claim-relevant list
holds strings, for which the coercion is the identity.  -/
def jsCoerceString : Json → String
  | .str s => s
  | .null => "null"
  | .bool true => "true"
  | .bool false => "false"
  | .num l => l
  | .arr _ => ""
  | .obj _ => "[object Object]"

/-- the `for (const [index, proxyTarget] of req.cookies.proxyTargets
.entries())` loop of lines 338-352.  State: remaining enumerated candidates,
attempted set, best (response, index), rate queue, next attempt number,
issued list.  A thrown URL-validation error aborts the loop. -/
def cookieLoop (env : Env) (req : Req) :
    List (Nat × String) → List String → Option (Resp × Nat) → List RateEntry → Nat →
    List (String × String) →
    Except String (Option (Resp × Nat)) × List RateEntry × Nat × List (String × String)
  | [], _, best, recent, att, issued => (.ok best, recent, att, issued)
  | (index, pt) :: rest, attempted, best, recent, att, issued =>
    if attempted.contains pt then cookieLoop env req rest attempted best recent att issued
    else
      match sendBrowserRequest env req att recent pt req.url with
      | (.error e, recent2, iss) => (.error e, recent2, att + 1, issued ++ iss)
      | (.ok resp, recent2, iss) =>
        let best2 := match best with
          | none => some (resp, index)
          | some b => some b
        if resp.status < 400 then
          (.ok (some (resp, index)), recent2, att + 1, issued ++ iss)
        else cookieLoop env req rest (pt :: attempted) best2 recent2 (att + 1) (issued ++ iss)

/-- `proxyBrowserRequestOnCookies(req)` (lines 333-357) over the decoded
cookie list (as Json elements): run the loop, then
`if (bestProxyTargetIndex > 0 && bestResponse.ok) splice(0, k)`.  Returns
(response-or-none and the best index, the updated list). -/
def proxyBrowserRequestOnCookies (env : Env) (req : Req) (targets : List Json)
    (recent : List RateEntry) (att : Nat) :
    Except String (Option (Resp × Nat) × List Json) × List RateEntry × Nat ×
      List (String × String) :=
  let r := cookieLoop env req ((targets.map jsCoerceString).enum) [] none recent att []
  match r.1 with
  | .error e => (.error e, r.2.1, r.2.2.1, r.2.2.2)
  | .ok none => (.ok (none, targets), r.2.1, r.2.2.1, r.2.2.2)
  | .ok (some (resp, k)) =>
    let targets2 := if 0 < k ∧ resp.ok then targets.drop k else targets
    (.ok (some (resp, k), targets2), r.2.1, r.2.2.1, r.2.2.2)

/-- `getAbsoluteProxyTarget(url)` (lines 93-97): first path segment with its
first `.` replaced by `://`; the rest re-joined behind `/`. -/
def getAbsoluteProxyTarget (url : String) : String × String :=
  let parts := splitCharList '/' (url.data.drop 1)
  let proxyTarget := replaceOnce (parts.headD []) ['.'] [':', '/', '/']
  (ofStr proxyTarget, ofStr ('/' :: joinSep ['/'] (parts.drop 1)))

def contentTypeErrMsg : String :=
  "TypeError: Cannot read properties of null (reading includes)"

def unshiftErrMsg : String :=
  "TypeError: req.cookies.proxyTargets.unshift is not a function"

/-- `x[0] !== proxyTarget` for a Json element against a string. -/
def jsonHeadDiffers : List Json → String → Bool
  | [], _ => true
  | x :: _, pt =>
    match x with
    | .str s => decide (s ≠ pt)
    | _ => true

/-- the shared tail of `proxyBrowserRequest` for the absolute-in-path and
fallback branches (lines 377-389): send, then the prepend check
`response.ok && req.method === 'GET' &&
response.headers.get('content-type').includes('html') && (length === 0 ||
[0] !== proxyTarget)`, where a missing content-type makes `.includes` throw
and a non-array cookie value makes `.unshift` throw. -/
def absoluteSendAndPrepend (env : Env) (req : Req) (targetsJson : Json)
    (recent : List RateEntry) (att : Nat) (pt url2 : String) :
    Except String (Option Resp) × Json × List RateEntry × Nat × List (String × String) :=
  match sendBrowserRequest env req att recent pt url2 with
  | (.error e, recent2, iss) => (.error e, targetsJson, recent2, att + 1, iss)
  | (.ok resp, recent2, iss) =>
    if resp.ok && req.method = "GET" then
      match headersGet resp.headers "content-type" with
      | none => (.error contentTypeErrMsg, targetsJson, recent2, att + 1, iss)
      | some t =>
        if containsSub t.data "html".data then
          match targetsJson with
          | .arr l =>
            if l.length = 0 || jsonHeadDiffers l pt then
              (.ok (some resp), .arr (.str pt :: l), recent2, att + 1, iss)
            else (.ok (some resp), targetsJson, recent2, att + 1, iss)
          | _ => (.error unshiftErrMsg, targetsJson, recent2, att + 1, iss)
        else (.ok (some resp), targetsJson, recent2, att + 1, iss)
    else (.ok (some resp), targetsJson, recent2, att + 1, iss)

/-- `proxyBrowserRequest(req)` (lines 365-390).  Returns (response, the
possibly mutated cookie-list state, rate queue, attempts, issued). -/
def proxyBrowserRequest (env : Env) (req : Req) (targetsJson : Json)
    (recent : List RateEntry) (att : Nat) :
    Except String (Option Resp) × Json × List RateEntry × Nat × List (String × String) :=
  if jsStartsWith req.url "/http." || jsStartsWith req.url "/https." then
    let pu := getAbsoluteProxyTarget req.url
    absoluteSendAndPrepend env req targetsJson recent att pu.1 pu.2
  else
    match targetsJson with
    | .arr l =>
      if l.length > 0 then
        match proxyBrowserRequestOnCookies env req l recent att with
        | (.error e, recent2, att2, iss) => (.error e, targetsJson, recent2, att2, iss)
        | (.ok (none, l2), recent2, att2, iss) => (.ok none, .arr l2, recent2, att2, iss)
        | (.ok (some (resp, _), l2), recent2, att2, iss) =>
          (.ok (some resp), .arr l2, recent2, att2, iss)
      else absoluteSendAndPrepend env req targetsJson recent att fallBackDomain "/"
    | _ => absoluteSendAndPrepend env req targetsJson recent att fallBackDomain "/"

/-! ## The app.all handler and the error middleware (lines 395-459) -/

inductive BodyOut where
  | text (s : String)
  | piped (len : Option String)
  | empty
deriving DecidableEq, Repr

inductive ClientOutcome where
  | ok (status : Nat) (headers : List (String × String))
      (cookies : List (String × String)) (body : BodyOut)
  | err500 (msg : String)
deriving DecidableEq, Repr

def jsonErrMsg : String := "SyntaxError: Unexpected token in JSON"

def isTextualType (t : String) : Bool :=
  containsSub t.data "html".data || containsSub t.data "css".data ||
  containsSub t.data "scss".data || containsSub t.data "javascript".data ||
  containsSub t.data "json".data || containsSub t.data "text".data ||
  containsSub t.data "svg".data

/-- the cookie middleware of lines 396-399:
`JSON.parse(req.cookies.proxyTargets || '[]')`; an absent or empty (falsy)
raw value parses `[]`, a parse failure throws. -/
def decodeProxyTargets (raw : Option String) : Except String Json :=
  let eff := match raw with
    | none => "[]"
    | some s => if s = "" then "[]" else s
  match jsonParse eff.data with
  | none => .error jsonErrMsg
  | some v => .ok v

/-- the `app.all('/**')` handler plus the error middleware (lines 413-459):
decode the cookie, proxy, forward status, transform response headers, emit
the `proxyTargets` cookie, and send the body (URL-rewritten for textual
content types, piped otherwise, empty without a content-type).  Any thrown
error becomes a 500 whose body is the error text. -/
def handleRequest (env : Env) (req : Req) (recent : List RateEntry) : ClientOutcome :=
  match decodeProxyTargets req.proxyTargetsRaw with
  | .error e => .err500 e
  | .ok targets0 =>
    match proxyBrowserRequest env req targets0 recent 0 with
    | (.error e, _, _, _, _) => .err500 e
    | (.ok none, _, _, _, _) => .err500 "Proxying client request did not deliver a response"
    | (.ok (some resp), targets1, _, _, _) =>
      let host := (headersGet req.headers "host").getD "undefined"
      let tr := transformHeadersForResponse resp.headers host
      let rawLen := (match req.proxyTargetsRaw with
        | none => 2
        | some s => s.length + 2)
      let cookies := tr.2 ++ [("proxyTargets", ofStr (jsonStringify (rawLen + 2) targets1))]
      match headersGet resp.headers "content-type" with
      | none => .ok resp.status tr.1 cookies .empty
      | some t =>
        if t = "" then .ok resp.status tr.1 cookies .empty
        else if isTextualType t then
          .ok resp.status tr.1 cookies (.text (injectProxyTarget resp.body host))
        else .ok resp.status tr.1 cookies (.piped (headersGet resp.headers "content-length"))

/-! ## Concrete scenarios used by counterexamples and witnesses -/

/-- ten recent rate-limit entries for the fingerprint (i, u, https://a, /x). -/
def rlTen : List RateEntry := List.replicate 10 ⟨"i", "u", "https://a", "/x", 900⟩

def envAB : Env :=
  ⟨fun pt _ => if pt = "https://b" then ⟨200, [("content-type", "text/html")], "hi"⟩
    else ⟨503, [], ""⟩, fun _ => 1000⟩

def reqAB : Req :=
  ⟨"GET", "/x", "i", "u", [("host", "p")], some "[\"https://a\",\"https://b\"]"⟩

def envPlain : Env := ⟨fun _ _ => ⟨200, [("content-type", "text/html")], "hi"⟩, fun _ => 0⟩

def reqBadCookie : Req := ⟨"GET", "/", "i", "u", [("host", "p")], some "oops"⟩

def reqNoCookie : Req := ⟨"GET", "/", "i", "u", [("host", "p")], none⟩

def envNoType : Env := ⟨fun _ _ => ⟨200, [], "x"⟩, fun _ => 0⟩

def reqAbsolute : Req := ⟨"GET", "/https.e/x", "i", "u", [("host", "p")], none⟩

def envAB2 : Env :=
  ⟨fun pt _ => if pt = "https://b" then ⟨200, [("content-type", "text/html")], "ok"⟩
    else ⟨503, [], ""⟩, fun _ => 0⟩

/-! ## Claim theorems -/

/-- Claim C3, counterexample: the spec's own example input
`src="\/\/cdn.example.com\u002fa.js"` is NOT rewritten to
`src="\/\/<proxy>\u002fhttp.cdn.example.com\u002fa.js"`: the code emits a
`http:` scheme prefix before the doubled delimiter and reuses the captured
`\/` delimiter, producing
`src="http:\/\/P\/http.cdn.example.com\u002fa.js"` instead. -/
theorem claim_C3_counterexample :
    injectProxyTarget "src=\"\\/\\/cdn.example.com\\u002fa.js\"" "P" =
      "src=\"http:\\/\\/P\\/http.cdn.example.com\\u002fa.js\"" ∧
    ("src=\"http:\\/\\/P\\/http.cdn.example.com\\u002fa.js\"" : String) ≠
      "src=\"\\/\\/P\\u002fhttp.cdn.example.com\\u002fa.js\"" :=
  ⟨by decide, by decide⟩

/-- Claim C3, amended: a matched protocol-relative URL (no protocol capture)
is rewritten with the wire protocol defaulting to `http.`, but the emitted
replacement always begins with the scheme prefix `http:` before the doubled
delimiter; in particular the example input rewrites to
`src="http:\/\/P\/http.cdn.example.com\u002fa.js"`. -/
theorem claim_C3_amended :
    (∀ (proxy : Str) (caps : Caps), capGet caps 1 = none →
      buildReplacement proxy caps =
        "http:".data ++ (capGet caps 2).getD [] ++ (capGet caps 2).getD [] ++ proxy ++
          (capGet caps 2).getD [] ++ "http.".data ++ (capGet caps 3).getD [] ++
          (capGet caps 4).getD [] ++ (capGet caps 5).getD [] ++ (capGet caps 6).getD [] ++
          (capGet caps 7).getD [] ++ (capGet caps 8).getD []) ∧
    injectProxyTarget "src=\"\\/\\/cdn.example.com\\u002fa.js\"" "P" =
      "src=\"http:\\/\\/P\\/http.cdn.example.com\\u002fa.js\"" := by
  constructor
  · intro proxy caps h
    simp [buildReplacement, h]
  · decide

/-- Claim C3, witness for the amended theorem's hypothesis, at the empty
capture list (no protocol group). -/
theorem claim_C3_witness :
    buildReplacement "P".data [] =
      "http:".data ++ (capGet [] 2).getD [] ++ (capGet [] 2).getD [] ++ "P".data ++
        (capGet [] 2).getD [] ++ "http.".data ++ (capGet [] 3).getD [] ++
        (capGet [] 4).getD [] ++ (capGet [] 5).getD [] ++ (capGet [] 6).getD [] ++
        (capGet [] 7).getD [] ++ (capGet [] 8).getD [] :=
  claim_C3_amended.1 "P".data [] (by decide)

/-- Claim C8, counterexample: the URL rewriter is not idempotent: on
`x="http://h/"` one application yields `x="http://p/http.h/"`, and a second
application rewrites the already-proxied URL again. -/
theorem claim_C8_counterexample :
    injectProxyTarget (injectProxyTarget "x=\"http://h/\"" "p") "p" ≠
      injectProxyTarget "x=\"http://h/\"" "p" ∧
    injectProxyTarget (injectProxyTarget "x=\"http://h/\"" "p") "p" =
      "x=\"http://p/http.p/http.h/\"" :=
  ⟨by decide, by decide⟩

/-- Claim C8, amended: the rewriter is idempotent only on its fixed points:
if a text is left unchanged by one application, a second application also
leaves it unchanged; on already-proxied text it instead wraps the proxied
URL again (see the counterexample). -/
theorem claim_C8_amended (t p : String) (h : injectProxyTarget t p = t) :
    injectProxyTarget (injectProxyTarget t p) p = injectProxyTarget t p := by
  rw [h]
  exact h

/-- Claim C8, witness: the amended theorem applied to a match-free text. -/
theorem claim_C8_witness :
    injectProxyTarget "a" "p" = "a" ∧
    injectProxyTarget (injectProxyTarget "a" "p") "p" = injectProxyTarget "a" "p" :=
  ⟨by decide, claim_C8_amended "a" "p" (by decide)⟩

/-- Claim C9, counterexample: a URL immediately preceded by a backslash is
not byte-identical in the output: in `\http://h/x` the match cannot start at
the backslash-preceded `http:`, but the scheme-less tail `//h/x` still
matches as a protocol-relative URL and is rewritten. -/
theorem claim_C9_counterexample :
    injectProxyTarget "\\http://h/x" "p" = "\\http:http://p/http.h/x" ∧
    injectProxyTarget "\\http://h/x" "p" ≠ "\\http://h/x" :=
  ⟨by decide, by decide⟩

/-- Claim C9, amended: the negative lookbehind only blocks a match from
STARTING at a position directly preceded by a backslash or at which an
`xmlns=`-prefix (six-character window) ends: at a blocked position the
scanner copies the character unchanged; a sub-URL starting later may still
be rewritten.  The spec's example `xmlns="http://www.w3.org/2000/svg"` is
left byte-identical. -/
theorem claim_C9_amended :
    (∀ (rpre : Str), rpre.head? = some '\\' → lookbehindOk rpre = false) ∧
    (∀ (proxy : Str) (re : RE) (fuel : Nat) (rpre acc : Str) (c : Char) (rest : Str),
      lookbehindOk rpre = false →
      scanReplace proxy re (fuel + 1) rpre (c :: rest) acc =
        scanReplace proxy re fuel (c :: rpre) rest (acc ++ [c])) ∧
    injectProxyTarget "xmlns=\"http://www.w3.org/2000/svg\"" "p" =
      "xmlns=\"http://www.w3.org/2000/svg\"" := by
  refine ⟨?_, ?_, by decide⟩
  · intro rpre h
    simp [lookbehindOk, h]
  · intro proxy re fuel rpre acc c rest h
    simp [scanReplace, h]

/-- Claim C9, witness: the amended theorem's blocked-position clauses at a
concrete backslash-preceded position. -/
theorem claim_C9_witness :
    lookbehindOk ['\\'] = false ∧
    scanReplace "p".data (urlReplacementRegexBody 2) 1 ['\\'] ['a'] [] =
      scanReplace "p".data (urlReplacementRegexBody 2) 0 ['a', '\\'] [] ([] ++ ['a']) :=
  ⟨claim_C9_amended.1 ['\\'] (by decide),
   claim_C9_amended.2.1 "p".data (urlReplacementRegexBody 2) 0 ['\\'] [] 'a' []
     (claim_C9_amended.1 ['\\'] (by decide))⟩

/-! ### Rate limiter (claim C4) -/

lemma dropWhile_eq_filter_not {α : Type} (p : α → Bool) :
    ∀ l : List α, l.Pairwise (fun a b => p b = true → p a = true) →
      l.dropWhile p = l.filter (fun e => ! p e) := by
  intro l h
  induction l with
  | nil => rfl
  | cons a t ih =>
    rw [List.pairwise_cons] at h
    rcases h with ⟨ha, ht⟩
    cases hpa : p a with
    | true => simp [List.dropWhile_cons, List.filter_cons, hpa, ih ht]
    | false =>
      have hall : ∀ b ∈ t, p b = false := by
        intro b hb
        cases hpb : p b with
        | false => rfl
        | true => rw [ha b hb hpb] at hpa; exact absurd hpa (by simp)
      simp only [List.dropWhile_cons, List.filter_cons, hpa, Bool.false_eq_true, if_false,
        Bool.not_false, if_true]
      rw [List.filter_eq_self.mpr]
      intro b hb
      simp [hall b hb]

lemma not_decide_lt (x y : Nat) : (! decide (y < x)) = decide (x ≤ y) := by
  rw [← decide_not]
  exact decide_eq_decide.mpr Nat.not_lt

/-- Claim C4: on every attempt the rate limiter appends the current
(fingerprint, timestamp) entry, evicts every entry whose age exceeds the
3000 ms window (given that the queue's timestamps are in arrival order and
not in the future, which the global monotone clock guarantees), keeps the
current attempt in the queue, and signals exceeded exactly when the number
of entries matching the current four-field fingerprint — the current attempt
included — is strictly greater than 10. -/
theorem claim_C4_rate_limiter (recent : List RateEntry) (now : Nat) (ip ua pt path : String)
    (hsort : recent.Pairwise (fun a b => a.time ≤ b.time))
    (hpast : ∀ e ∈ recent, e.time ≤ now) :
    (checkRateLimit recent now ip ua pt path).2 =
      (recent ++ [(⟨ip, ua, pt, path, now⟩ : RateEntry)]).filter
        (fun e => decide (now - e.time ≤ rateLimitWindow)) ∧
    (⟨ip, ua, pt, path, now⟩ : RateEntry) ∈ (checkRateLimit recent now ip ua pt path).2 ∧
    (checkRateLimit recent now ip ua pt path).1 =
      decide (rateLimitCount <
        ((checkRateLimit recent now ip ua pt path).2.filter
          (fun e => fpMatches e ip ua pt path)).length) := by
  have hsort2 : (recent ++ [(⟨ip, ua, pt, path, now⟩ : RateEntry)]).Pairwise
      (fun a b => a.time ≤ b.time) := by
    rw [List.pairwise_append]
    refine ⟨hsort, List.pairwise_singleton _ _, ?_⟩
    intro a ha b hb
    rw [List.mem_singleton] at hb
    subst hb
    exact hpast a ha
  have himp : (recent ++ [(⟨ip, ua, pt, path, now⟩ : RateEntry)]).Pairwise
      (fun a b => (fun e => decide (rateLimitWindow < now - e.time)) b = true →
        (fun e => decide (rateLimitWindow < now - e.time)) a = true) := by
    refine hsort2.imp ?_
    intro a b hab hb
    simp only [decide_eq_true_eq] at hb ⊢
    have : now - b.time ≤ now - a.time := Nat.sub_le_sub_left hab now
    omega
  have hdw : (checkRateLimit recent now ip ua pt path).2 =
      (recent ++ [(⟨ip, ua, pt, path, now⟩ : RateEntry)]).filter
        (fun e => decide (now - e.time ≤ rateLimitWindow)) := by
    show (recent ++ [(⟨ip, ua, pt, path, now⟩ : RateEntry)]).dropWhile
        (fun e => decide (rateLimitWindow < now - e.time)) = _
    rw [dropWhile_eq_filter_not _ _ himp]
    apply List.filter_congr
    intro e _
    exact not_decide_lt (now - e.time) rateLimitWindow
  refine ⟨hdw, ?_, ?_⟩
  · rw [hdw, List.mem_filter]
    refine ⟨List.mem_append_right _ (List.mem_singleton_self _), by simp⟩
  · show decide (rateLimitCount < List.countP _ _) = _
    rw [List.countP_eq_length_filter]
    rfl

/-- Claim C4, witness: the specification applied to the empty queue. -/
theorem claim_C4_witness :
    (checkRateLimit [] 0 "i" "u" "t" "/p").2 =
      ([] ++ [(⟨"i", "u", "t", "/p", 0⟩ : RateEntry)]).filter
        (fun e => decide (0 - e.time ≤ rateLimitWindow)) ∧
    (⟨"i", "u", "t", "/p", 0⟩ : RateEntry) ∈ (checkRateLimit [] 0 "i" "u" "t" "/p").2 ∧
    (checkRateLimit [] 0 "i" "u" "t" "/p").1 =
      decide (rateLimitCount <
        ((checkRateLimit [] 0 "i" "u" "t" "/p").2.filter
          (fun e => fpMatches e "i" "u" "t" "/p")).length) :=
  claim_C4_rate_limiter [] 0 "i" "u" "t" "/p" (List.Pairwise.nil) (by simp)

/-! ### Cookie decoding middleware (claim C6) -/

/-- Claim C6, counterexample: a present but malformed `proxyTargets` cookie
does NOT make the request proceed with the empty list: `JSON.parse` throws
and the error middleware answers 500, unlike the absent-cookie case, which
proceeds and reaches the upstream. -/
theorem claim_C6_counterexample :
    jsonParse "oops".data = none ∧
    handleRequest envPlain reqBadCookie [] = .err500 jsonErrMsg ∧
    handleRequest envPlain reqNoCookie [] =
      .ok 200 [("content-type", "text/html"), ("access-control-allow-origin", "*")]
        [("proxyTargets", "[\"https://www.example.com\"]")] (.text "hi") :=
  ⟨rfl, by decide, by decide⟩

/-- Claim C6, amended: an absent `proxyTargets` cookie decodes to the empty
list and the request proceeds; a present but malformed (non-JSON) value
makes the decoder throw, so the request is answered 500 by the error
middleware instead of proceeding. -/
theorem claim_C6_amended :
    decodeProxyTargets none = .ok (.arr []) ∧
    (∀ (env : Env) (req : Req) (recent : List RateEntry) (raw : String),
      req.proxyTargetsRaw = some raw → raw ≠ "" → jsonParse raw.data = none →
      handleRequest env req recent = .err500 jsonErrMsg) := by
  refine ⟨rfl, ?_⟩
  intro env req recent raw hr hne hp
  unfold handleRequest decodeProxyTargets
  rw [hr]
  simp [hne, hp]

/-- Claim C6, witness: the amended theorem's malformed branch at a concrete
request. -/
theorem claim_C6_witness :
    handleRequest envPlain reqBadCookie [] = .err500 jsonErrMsg :=
  claim_C6_amended.2 envPlain reqBadCookie [] "oops" rfl (by decide) rfl

/-! ### parseCookie (claim C7) -/

lemma replaceOnce_of_not_contains (s pat rep : Str) (h : containsSub s pat = false) :
    replaceOnce s pat rep = s := by
  unfold replaceOnce
  have hf : (List.range (s.length + 1)).find?
      (fun i => decide ((s.drop i).take pat.length = pat)) = none := by
    rw [List.find?_eq_none]
    intro i hi hcon
    have : containsSub s pat = true := by
      unfold containsSub
      rw [List.any_eq_true]
      exact ⟨i, hi, hcon⟩
    rw [this] at h
    exact absurd h (by simp)
  rw [hf]

lemma camelAdjust_id (s : Str) (h1 : containsSub s "samesite".data = false)
    (h2 : containsSub s "httponly".data = false) : camelAdjust s = s := by
  unfold camelAdjust
  rw [replaceOnce_of_not_contains _ _ _ h1, replaceOnce_of_not_contains _ _ _ h2]

/-- Claim C7, counterexample: on the syntactically valid cookie
`a=b; SameSiteX=y`, the stored attribute key is `sameSitex` — produced by
the substring replacement `samesite -> sameSite` inside a longer name —
which is neither lower-cased nor one of the canonical camel spellings
`sameSite`, `httpOnly`, `maxAge`. -/
theorem claim_C7_counterexample :
    parseCookie "a=b; SameSiteX=y" = some ⟨"a", "b", [("sameSitex", .str "y")]⟩ ∧
    ¬ (("sameSitex" : String).data = lowerStr ("sameSitex" : String).data ∨
      ("sameSitex" : String) ∈ (["sameSite", "httpOnly", "maxAge"] : List String)) :=
  ⟨by decide, by decide⟩

/-- Claim C7, amended: attribute keys are the trimmed, lower-cased names
with the FIRST SUBSTRING occurrence of `samesite` replaced by `sameSite` and
of `httponly` by `httpOnly` (so names merely containing those substrings
also change case); a name without those substrings stays lower-cased.  A
valued attribute whose adjusted key is exactly `maxage` is stored as
`maxAge` with its trimmed value parsed by Number.parseInt; a valued
`expires` is stored as a date of its trimmed value; other valued attributes
store the trimmed string; valueless attributes store the flag `true` under
the adjusted key (so a valueless `MaxAge` stays `maxage`).  A parsed cookie
carries the trimmed name and value and these processed attributes;
syntactically malformed inputs give a parse error. -/
theorem claim_C7_amended :
    (∀ (an : Str), processAttr (an, none) =
      (ofStr (camelAdjust (lowerStr (strTrim an))), .flag true)) ∧
    (∀ (an av : Str), camelAdjust (lowerStr (strTrim an)) = "maxage".data →
      processAttr (an, some av) = ("maxAge", .num (parseIntJS (strTrim av)))) ∧
    (∀ (an av : Str), camelAdjust (lowerStr (strTrim an)) = "expires".data →
      processAttr (an, some av) = ("expires", .date (ofStr (strTrim av)))) ∧
    (∀ (an av : Str), camelAdjust (lowerStr (strTrim an)) ≠ "maxage".data →
      camelAdjust (lowerStr (strTrim an)) ≠ "expires".data →
      processAttr (an, some av) =
        (ofStr (camelAdjust (lowerStr (strTrim an))), .str (ofStr (strTrim av)))) ∧
    (∀ (s : Str), containsSub s "samesite".data = false →
      containsSub s "httponly".data = false → camelAdjust s = s) ∧
    (camelAdjust "samesite".data = "sameSite".data ∧
      camelAdjust "httponly".data = "httpOnly".data) ∧
    (∀ (c : String) (n v rest : Str) (attrs : List (Str × Option Str)),
      parseNameValue c.data = some (n, v, rest) →
      parseAttrs (rest.length + 1) rest = some attrs →
      parseCookie c =
        some ⟨ofStr (strTrim n), ofStr (strTrim v), objFromEntries (attrs.map processAttr)⟩) ∧
    (parseCookie "a" = none ∧ parseCookie ";x=1" = none ∧ parseCookie "a=b; foo=" = none) := by
  refine ⟨?_, ?_, ?_, ?_, camelAdjust_id, ⟨by decide, by decide⟩, ?_, by decide, by decide,
    by decide⟩
  · intro an
    simp [processAttr]
  · intro an av h
    simp [processAttr, h]
  · intro an av h
    have hne : camelAdjust (lowerStr (strTrim an)) ≠ "maxage".data := by
      rw [h]
      decide
    simp [processAttr, h, hne]
  · intro an av h1 h2
    simp [processAttr, h1, h2]
  · intro c n v rest attrs h1 h2
    simp [parseCookie, h1, h2]

/-- Claim C7, witness: the amended attribute rules applied at concrete
attributes (`HttpOnly` flag, valued `MaxAge`, valued `Expires`, a plain
attribute, an untouched name) and the structural clause at `a=b; p=q`. -/
theorem claim_C7_witness :
    processAttr ("HttpOnly".data, none) =
      (ofStr (camelAdjust (lowerStr (strTrim "HttpOnly".data))), .flag true) ∧
    processAttr ("MaxAge".data, some " 12 ".data) =
      ("maxAge", .num (parseIntJS (strTrim " 12 ".data))) ∧
    processAttr ("Expires".data, some "now".data) =
      ("expires", .date (ofStr (strTrim "now".data))) ∧
    processAttr ("Path".data, some "/".data) =
      (ofStr (camelAdjust (lowerStr (strTrim "Path".data))), .str (ofStr (strTrim "/".data))) ∧
    camelAdjust "path".data = "path".data ∧
    parseCookie "a=b; p=q" =
      some ⟨ofStr (strTrim "a".data), ofStr (strTrim "b".data),
        objFromEntries ([(" p".data, some "q".data)].map processAttr)⟩ :=
  ⟨claim_C7_amended.1 "HttpOnly".data,
   claim_C7_amended.2.1 "MaxAge".data " 12 ".data (by decide),
   claim_C7_amended.2.2.1 "Expires".data "now".data (by decide),
   claim_C7_amended.2.2.2.1 "Path".data "/".data (by decide) (by decide),
   claim_C7_amended.2.2.2.2.1 "path".data (by decide) (by decide),
   claim_C7_amended.2.2.2.2.2.2.1 "a=b; p=q" "a".data "b".data "; p=q".data
     [(" p".data, some "q".data)] (by decide) (by decide)⟩

/-! ### Rate-limited dispatch (claim C1) -/

lemma cookieLoop_nil (env : Env) (req : Req) (attempted : List String)
    (best : Option (Resp × Nat)) (recent : List RateEntry) (att : Nat)
    (issued : List (String × String)) :
    cookieLoop env req [] attempted best recent att issued = (.ok best, recent, att, issued) :=
  rfl

lemma cookieLoop_cons (env : Env) (req : Req) (index : Nat) (pt : String)
    (rest : List (Nat × String)) (attempted : List String) (best : Option (Resp × Nat))
    (recent : List RateEntry) (att : Nat) (issued : List (String × String)) :
    cookieLoop env req ((index, pt) :: rest) attempted best recent att issued =
      if attempted.contains pt then cookieLoop env req rest attempted best recent att issued
      else
        match sendBrowserRequest env req att recent pt req.url with
        | (.error e, recent2, iss) => (.error e, recent2, att + 1, issued ++ iss)
        | (.ok resp, recent2, iss) =>
          if resp.status < 400 then (.ok (some (resp, index)), recent2, att + 1, issued ++ iss)
          else
            cookieLoop env req rest (pt :: attempted)
              (match best with
                | none => some (resp, index)
                | some b => some b)
              recent2 (att + 1) (issued ++ iss) := rfl

/-- Claim C1, counterexample: with the fingerprint of candidate 0
(`https://a`) already at the limit, the rate limiter reports exceeded, yet
the dispatcher still attempts the later candidate `https://b` (an upstream
request is issued for it) and the client receives that candidate's 200
response, not a 429 with empty body. -/
theorem claim_C1_counterexample :
    (checkRateLimit rlTen 1000 "i" "u" "https://a" "/x").1 = true ∧
    (proxyBrowserRequest envAB reqAB (.arr [.str "https://a", .str "https://b"])
      rlTen 0).2.2.2.2 = [("https://b", "/x")] ∧
    handleRequest envAB reqAB rlTen =
      .ok 200 [("content-type", "text/html"), ("access-control-allow-origin", "*")]
        [("proxyTargets", "[\"https://b\"]")] (.text "hi") :=
  ⟨by decide, by decide, by decide⟩

/-- Claim C1, amended: when the rate limiter reports the fingerprint of the
current candidate as exceeded, that candidate itself yields a 429 response
with an empty body and no upstream request is issued FOR THAT CANDIDATE; but
the candidate loop does not short-circuit: it records the 429 as the
provisional best (if none exists) and continues with the remaining
candidates, each subject to its own fingerprint check, so the client
receives the 429 only if no candidate produces a status below 400. -/
theorem claim_C1_rate_limited_candidate
    (env : Env) (req : Req) (att : Nat) (recent : List RateEntry) (pt : String)
    (index : Nat) (rest : List (Nat × String)) (attempted : List String)
    (best : Option (Resp × Nat)) (issued : List (String × String))
    (hex : (checkRateLimit recent (env.nowAt att) req.ip req.userAgent pt
      (pathOf req.url)).1 = true)
    (hnew : attempted.contains pt = false) :
    sendBrowserRequest env req att recent pt req.url =
      (.ok resp429,
        (checkRateLimit recent (env.nowAt att) req.ip req.userAgent pt (pathOf req.url)).2,
        []) ∧
    cookieLoop env req ((index, pt) :: rest) attempted best recent att issued =
      cookieLoop env req rest (pt :: attempted) (some (best.getD (resp429, index)))
        (checkRateLimit recent (env.nowAt att) req.ip req.userAgent pt (pathOf req.url)).2
        (att + 1) issued := by
  have h1 : sendBrowserRequest env req att recent pt req.url =
      (.ok resp429,
        (checkRateLimit recent (env.nowAt att) req.ip req.userAgent pt (pathOf req.url)).2,
        []) := by
    unfold sendBrowserRequest
    simp [hex]
  refine ⟨h1, ?_⟩
  rw [cookieLoop_cons, hnew, h1]
  have h429 : ¬ resp429.status < 400 := by decide
  simp only [Bool.false_eq_true, if_false, h429, List.append_nil]
  cases best with
  | none => rfl
  | some b => rfl

/-- Claim C1, witness: the amended theorem at a concrete exceeded
fingerprint. -/
theorem claim_C1_witness :
    sendBrowserRequest envAB reqAB 0 rlTen "https://a" reqAB.url =
      (.ok resp429,
        (checkRateLimit rlTen (envAB.nowAt 0) reqAB.ip reqAB.userAgent "https://a"
          (pathOf reqAB.url)).2, []) ∧
    cookieLoop envAB reqAB [(0, "https://a")] [] none rlTen 0 [] =
      cookieLoop envAB reqAB [] ["https://a"] (some ((none : Option (Resp × Nat)).getD
        (resp429, 0)))
        (checkRateLimit rlTen (envAB.nowAt 0) reqAB.ip reqAB.userAgent "https://a"
          (pathOf reqAB.url)).2 (0 + 1) [] :=
  claim_C1_rate_limited_candidate envAB reqAB 0 rlTen "https://a" 0 [] [] none []
    (by decide) (by decide)

/-! ### Missing content-type on the absolute/fallback route (claim C10) -/

/-- Claim C10: on the absolute-in-path or fallback route (the two routes
that share the origin-prepend check of lines 380-387: either the URL starts
with `/http.`/`/https.` and (pt, url2) is its decoded target, or neither
prefix matches, the decoded cookie value is not a non-empty array, and
(pt, url2) is the configured fallback with url `/`), a GET whose upstream
response is 2xx but carries no content-type header makes the origin-prepend
check dereference the missing header
(`response.headers.get('content-type').includes('html')`), which throws, so
the error middleware answers 500 instead of forwarding the upstream
response. -/
theorem claim_C10_missing_content_type
    (env : Env) (req : Req) (recent : List RateEntry) (targets0 : Json)
    (pt url2 : String)
    (hroute : ((jsStartsWith req.url "/http." || jsStartsWith req.url "/https.") = true ∧
        getAbsoluteProxyTarget req.url = (pt, url2)) ∨
      ((jsStartsWith req.url "/http." || jsStartsWith req.url "/https.") = false ∧
        (∀ l, targets0 = Json.arr l → l = []) ∧ pt = fallBackDomain ∧ url2 = "/"))
    (hmeth : req.method = "GET")
    (hdec : decodeProxyTargets req.proxyTargetsRaw = .ok targets0)
    (hrl : (checkRateLimit recent (env.nowAt 0) req.ip req.userAgent pt
      (pathOf url2)).1 = false)
    (hval : urlValidates (pt.data ++ url2.data) = true)
    (hok : (env.fetchFn pt url2).ok = true)
    (hct : headersGet (env.fetchFn pt url2).headers "content-type" = none) :
    handleRequest env req recent = .err500 contentTypeErrMsg := by
  have hsend : absoluteSendAndPrepend env req targets0 recent 0 pt url2 =
      (.error contentTypeErrMsg, targets0,
        (checkRateLimit recent (env.nowAt 0) req.ip req.userAgent pt (pathOf url2)).2,
        0 + 1, [(pt, url2)]) := by
    unfold absoluteSendAndPrepend sendBrowserRequest
    simp [hmeth, hrl, hval, hok, hct]
  have hpb : proxyBrowserRequest env req targets0 recent 0 =
      (.error contentTypeErrMsg, targets0,
        (checkRateLimit recent (env.nowAt 0) req.ip req.userAgent pt (pathOf url2)).2,
        0 + 1, [(pt, url2)]) := by
    rcases hroute with ⟨habs, hget⟩ | ⟨hnabs, harr, hptf, hurl⟩
    · unfold proxyBrowserRequest
      simp only [habs, if_true, hget]
      exact hsend
    · subst hptf
      subst hurl
      unfold proxyBrowserRequest
      rw [hnabs]
      simp only [Bool.false_eq_true, if_false]
      cases targets0 with
      | arr l =>
        have hl : l = [] := harr l rfl
        subst hl
        simp only [List.length_nil, gt_iff_lt, Nat.lt_irrefl, if_false]
        exact hsend
      | null => exact hsend
      | bool b => exact hsend
      | num x => exact hsend
      | str x => exact hsend
      | obj x => exact hsend
  unfold handleRequest
  simp only [hdec, hpb]

/-- Claim C10, witness: the theorem applied on both routes: a concrete
absolute-route GET (`/https.e/x`) and a concrete fallback-route GET (`/`
with no cookie), each answered 200 upstream without a content-type. -/
theorem claim_C10_witness :
    handleRequest envNoType reqAbsolute [] = .err500 contentTypeErrMsg ∧
    handleRequest envNoType reqNoCookie [] = .err500 contentTypeErrMsg :=
  ⟨claim_C10_missing_content_type envNoType reqAbsolute [] (.arr []) "https://e" "/x"
      (Or.inl ⟨by decide, by decide⟩) rfl rfl (by decide) (by decide) (by decide) rfl,
    claim_C10_missing_content_type envNoType reqNoCookie [] (.arr [])
      "https://www.example.com" "/"
      (Or.inr ⟨by decide, fun l hl => (Json.arr.inj hl).symm, rfl, rfl⟩)
      rfl rfl (by decide) (by decide) (by decide) rfl⟩

/-! ### Cookie-list truncation (claim C2) -/

lemma sendBrowserRequest_ok_cases (env : Env) (req : Req) (att : Nat)
    (recent : List RateEntry) (pt url : String) (resp : Resp) (recent2 : List RateEntry)
    (iss : List (String × String))
    (h : sendBrowserRequest env req att recent pt url = (.ok resp, recent2, iss)) :
    resp = resp429 ∨ resp = env.fetchFn pt url := by
  unfold sendBrowserRequest at h
  dsimp only [] at h
  split_ifs at h with h1 h2
  · rw [Prod.ext_iff] at h
    exact Or.inl (Except.ok.inj h.1).symm
  · rw [Prod.ext_iff] at h
    exact Or.inr (Except.ok.inj h.1).symm
  · rw [Prod.ext_iff] at h
    exact absurd h.1 (by simp)

lemma cookieLoop_ok_provenance (env : Env) (req : Req) :
    ∀ (cands : List (Nat × String)) (attempted : List String) (best : Option (Resp × Nat))
      (recent : List RateEntry) (att : Nat) (issued : List (String × String))
      (resp : Resp) (k : Nat) (recent2 : List RateEntry) (att2 : Nat)
      (issued2 : List (String × String)),
      cookieLoop env req cands attempted best recent att issued =
        (.ok (some (resp, k)), recent2, att2, issued2) →
      resp.ok = true →
      (∃ pt, (k, pt) ∈ cands ∧ resp = env.fetchFn pt req.url) ∨ best = some (resp, k) := by
  intro cands
  induction cands with
  | nil =>
    intro attempted best recent att issued resp k r2 a2 i2 h hok
    rw [cookieLoop_nil, Prod.ext_iff] at h
    exact Or.inr (Except.ok.inj h.1)
  | cons hd tl ih =>
    intro attempted best recent att issued resp k r2 a2 i2 h hok
    obtain ⟨index, pt⟩ := hd
    rw [cookieLoop_cons] at h
    by_cases hc : attempted.contains pt
    · rw [if_pos hc] at h
      rcases ih _ _ _ _ _ _ _ _ _ _ h hok with ⟨pt2, hm, he⟩ | hb
      · exact Or.inl ⟨pt2, List.mem_cons_of_mem _ hm, he⟩
      · exact Or.inr hb
    · rw [if_neg hc] at h
      rcases hsr : sendBrowserRequest env req att recent pt req.url with ⟨er, rec3, iss3⟩
      rw [hsr] at h
      cases er with
      | error e =>
        dsimp only [] at h
        rw [Prod.ext_iff] at h
        exact absurd h.1 (by simp)
      | ok resp0 =>
        dsimp only [] at h
        by_cases hlt : resp0.status < 400
        · rw [if_pos hlt, Prod.ext_iff] at h
          have hp : (resp0, index) = (resp, k) := Option.some.inj (Except.ok.inj h.1)
          have hre : resp0 = resp := congrArg Prod.fst hp
          have hke : index = k := congrArg Prod.snd hp
          rcases sendBrowserRequest_ok_cases env req att recent pt req.url resp0 rec3 iss3
              hsr with h429 | hfetch
          · rw [hre] at h429
            rw [h429] at hok
            exact absurd hok (by decide)
          · refine Or.inl ⟨pt, ?_, ?_⟩
            · rw [← hke]
              exact List.mem_cons_self _ _
            · rw [← hre, hfetch]
        · rw [if_neg hlt] at h
          rcases ih _ _ _ _ _ _ _ _ _ _ h hok with ⟨pt2, hm, he⟩ | hb
          · exact Or.inl ⟨pt2, List.mem_cons_of_mem _ hm, he⟩
          · cases best with
            | some b => exact Or.inr hb
            | none =>
              have hp : (resp0, index) = (resp, k) := Option.some.inj hb
              have hre : resp0 = resp := congrArg Prod.fst hp
              have hke : index = k := congrArg Prod.snd hp
              rcases sendBrowserRequest_ok_cases env req att recent pt req.url resp0 rec3
                  iss3 hsr with h429 | hfetch
              · rw [hre] at h429
                rw [h429] at hok
                exact absurd hok (by decide)
              · refine Or.inl ⟨pt, ?_, ?_⟩
                · rw [← hke]
                  exact List.mem_cons_self _ _
                · rw [← hre, hfetch]

lemma map_coerce_map_str (targets : List String) :
    (targets.map Json.str).map jsCoerceString = targets := by
  induction targets with
  | nil => rfl
  | cons a t ih => simp [ih, jsCoerceString]

lemma transformResponse_cookie_names (hdrs : List (String × String)) (pt : String) :
    ∀ p ∈ (transformHeadersForResponse hdrs pt).2, p.1 ≠ "proxyTargets" := by
  have step : ∀ (st : List (String × String) × List (String × String)) (e : String × String),
      (∀ q ∈ st.2, q.1 ≠ "proxyTargets") →
      ∀ q ∈ (transformResponseHeaderStep pt st e).2, q.1 ≠ "proxyTargets" := by
    intro st e hst q hq
    unfold transformResponseHeaderStep at hq
    split_ifs at hq with h1 h2 h3
    · rcases hpc : parseCookie e.2 with _ | pc
      · rw [hpc] at hq
        exact hst q hq
      · rw [hpc] at hq
        dsimp only [] at hq
        rcases List.mem_append.mp hq with hin | hin
        · exact hst q hin
        · rw [List.mem_singleton] at hin
          subst hin
          by_cases hm : isStarUnderscoreProxyTargets pc.name.data
          · simp only [hm, if_true]
            intro heq
            have hd := congrArg String.data heq
            rw [String.data_append] at hd
            exact absurd hd (by simp)
          · simp only [hm, Bool.false_eq_true, if_false]
            intro heq
            rw [heq] at hm
            exact hm (by decide)
    · exact hst q hq
    · exact hst q hq
    · exact hst q hq
  intro p hp
  unfold transformHeadersForResponse at hp
  dsimp only [] at hp
  have main : ∀ (l : List (String × String))
      (st : List (String × String) × List (String × String)),
      (∀ q ∈ st.2, q.1 ≠ "proxyTargets") →
      ∀ q ∈ (l.foldl (transformResponseHeaderStep pt) st).2, q.1 ≠ "proxyTargets" := by
    intro l
    induction l with
    | nil => intro st h; exact h
    | cons e tl ih =>
      intro st h
      exact ih _ (step st e h)
  exact main hdrs ([], []) (by simp) p hp

/-- Claim C2: when the response returned by the cookie-list dispatcher comes
from cookie-list index `k` with a 2xx status and `k > 0`, the resulting
`proxyTargets` list is the inbound list with exactly its first `k` entries
removed (and the response really is the upstream response of candidate `k`);
for `k = 0` or a non-2xx best response the list is unchanged.  On the
cookie route the handler serialises exactly this list into the outgoing
`Set-Cookie: proxyTargets` entry, which is the only cookie of that name. -/
theorem claim_C2_list_truncation
    (env : Env) (req : Req) (targets : List String) (resp : Resp) (k : Nat)
    (l2 : List Json) (recent recent2 : List RateEntry) (att att2 : Nat)
    (issued2 : List (String × String))
    (hrun : proxyBrowserRequestOnCookies env req (targets.map Json.str) recent att =
      (.ok (some (resp, k), l2), recent2, att2, issued2)) :
    (resp.ok = true → 0 < k →
      l2 = (targets.map Json.str).drop k ∧
      ∃ pt, targets[k]? = some pt ∧ resp = env.fetchFn pt req.url) ∧
    (k = 0 → l2 = targets.map Json.str) ∧
    (resp.ok = false → l2 = targets.map Json.str) ∧
    (jsStartsWith req.url "/http." = false → jsStartsWith req.url "/https." = false →
      decodeProxyTargets req.proxyTargetsRaw = .ok (.arr (targets.map Json.str)) →
      targets ≠ [] → att = 0 →
      ∃ hdrs body,
        handleRequest env req recent =
          .ok resp.status hdrs
            ((transformHeadersForResponse resp.headers
                ((headersGet req.headers "host").getD "undefined")).2 ++
              [("proxyTargets", ofStr (jsonStringify
                ((match req.proxyTargetsRaw with | none => 2 | some s => s.length + 2) + 2)
                (.arr l2)))])
            body ∧
        (∀ p ∈ (transformHeadersForResponse resp.headers
            ((headersGet req.headers "host").getD "undefined")).2,
          p.1 ≠ "proxyTargets")) := by
  have hrun0 := hrun
  have hmap : (targets.map Json.str).map jsCoerceString = targets := map_coerce_map_str targets
  unfold proxyBrowserRequestOnCookies at hrun
  rw [hmap] at hrun
  rcases hloop : cookieLoop env req targets.enum [] none recent att []
    with ⟨er, rec3, att3, iss3⟩
  rw [hloop] at hrun
  cases er with
  | error e =>
    dsimp only [] at hrun
    rw [Prod.ext_iff] at hrun
    exact absurd hrun.1 (by simp)
  | ok obest =>
    cases obest with
    | none =>
      dsimp only [] at hrun
      rw [Prod.ext_iff] at hrun
      exact absurd (Except.ok.inj hrun.1) (by simp [Prod.ext_iff])
    | some rk =>
      obtain ⟨resp0, k0⟩ := rk
      dsimp only [] at hrun
      rw [Prod.ext_iff] at hrun
      have h1 := Except.ok.inj hrun.1
      have hpair : (resp0, k0) = (resp, k) := Option.some.inj (congrArg Prod.fst h1)
      have hrr : resp0 = resp := congrArg Prod.fst hpair
      have hkk : k0 = k := congrArg Prod.snd hpair
      have hl2 : (if 0 < k0 ∧ resp0.ok then (targets.map Json.str).drop k0
          else targets.map Json.str) = l2 := congrArg Prod.snd h1
      subst hrr
      subst hkk
      refine ⟨?_, ?_, ?_, ?_⟩
      · intro hok hkpos
        constructor
        · rw [← hl2, if_pos ⟨hkpos, hok⟩]
        · have hprov := cookieLoop_ok_provenance env req targets.enum [] none recent att []
            resp0 k0 rec3 att3 iss3 hloop hok
          rcases hprov with ⟨pt, hm, he⟩ | hb
          · exact ⟨pt, List.mk_mem_enum_iff_getElem?.mp hm, he⟩
          · exact absurd hb (by simp)
      · intro hk0
        rw [← hl2, hk0]
        simp
      · intro hnok
        rw [← hl2, hnok]
        simp
      · intro hr1 hr2 hdec hne hatt
        subst hatt
        have hpbr : proxyBrowserRequest env req (.arr (targets.map Json.str)) recent 0 =
            (.ok (some resp0), .arr l2, recent2, att2, issued2) := by
          unfold proxyBrowserRequest
          rw [hr1, hr2]
          have hlen : (targets.map Json.str).length > 0 := by
            rw [List.length_map]
            exact List.length_pos.mpr hne
          simp only [Bool.false_or, Bool.false_eq_true, if_false, hlen, if_true, hrun0]
        unfold handleRequest
        simp only [hdec, hpbr]
        rcases hct : headersGet resp0.headers "content-type" with _ | t
        · exact ⟨_, _, rfl, transformResponse_cookie_names _ _⟩
        · by_cases ht : t = ""
          · simp only [ht, if_pos rfl]
            exact ⟨_, _, rfl, transformResponse_cookie_names _ _⟩
          · by_cases htx : isTextualType t
            · simp only [ht, if_neg ht, htx, if_true]
              exact ⟨_, _, rfl, transformResponse_cookie_names _ _⟩
            · simp only [ht, if_neg ht, htx, Bool.false_eq_true, if_false]
              exact ⟨_, _, rfl, transformResponse_cookie_names _ _⟩

/-- Claim C2, witness: concrete two-candidate run where candidate 0 answers
503 and candidate 1 answers 200, so the list is truncated to its tail. -/
theorem claim_C2_witness :
    [Json.str "https://b"] = ((["https://a", "https://b"].map Json.str).drop 1) ∧
    ∃ pt, (["https://a", "https://b"][1]?) = some pt ∧
      (⟨200, [("content-type", "text/html")], "ok"⟩ : Resp) = envAB2.fetchFn pt reqAB.url :=
  (claim_C2_list_truncation envAB2 reqAB ["https://a", "https://b"]
    ⟨200, [("content-type", "text/html")], "ok"⟩ 1 [Json.str "https://b"] []
    [⟨"i", "u", "https://a", "/x", 0⟩, ⟨"i", "u", "https://b", "/x", 0⟩] 0 2
    [("https://a", "/x"), ("https://b", "/x")] rfl).1 (by decide) (by decide)

/-! ### Request header translation (claim C5) -/

lemma string_data_inj (a b : String) (h : a.data = b.data) : a = b := by
  cases a
  cases b
  exact congrArg String.mk h

lemma headersSetL_fresh (k v : String) :
    ∀ l : List (String × String), (∀ p ∈ l, p.1 ≠ k) → headersSetL k v l = l ++ [(k, v)] := by
  intro l
  induction l with
  | nil => intro _; rfl
  | cons e tl ih =>
    intro h
    obtain ⟨k0, w0⟩ := e
    unfold headersSetL
    rw [if_neg (h (k0, w0) (List.mem_cons_self _ _))]
    rw [ih (fun p hp => h p (List.mem_cons_of_mem _ hp))]
    rfl

lemma transformRequestHeaderStep_fresh (pt : String) (acc : List (String × String))
    (e : String × String) (hlow : ofStr (lowerStr e.1.data) = e.1)
    (hfresh : ∀ p ∈ acc, p.1 ≠ e.1) :
    transformRequestHeaderStep pt acc e = acc ++ (transformRequestEntry pt e).toList := by
  unfold transformRequestHeaderStep transformRequestEntry headersSet
  split_ifs with h1 h2 h3
  · rw [hlow, headersSetL_fresh _ _ _ hfresh]
    rfl
  · simp
  · rw [hlow, headersSetL_fresh _ _ _ hfresh]
    rfl
  · rw [hlow, headersSetL_fresh _ _ _ hfresh]
    rfl

lemma transformRequestEntry_some (pt : String) (e q : String × String)
    (h : transformRequestEntry pt e = some q) :
    q.1 = e.1 ∧ e.1 ≠ "content-length" ∧ e.1 ≠ "content-encoding" ∧
      e.1 ≠ "transfer-encoding" := by
  unfold transformRequestEntry at h
  split_ifs at h with h1 h2 h3
  · obtain rfl := Option.some.inj h
    rcases Bool.or_eq_true .. |>.mp h1 with hh | hh
    · rw [decide_eq_true_eq] at hh
      rw [hh]
      exact ⟨rfl, by decide, by decide, by decide⟩
    · rw [decide_eq_true_eq] at hh
      rw [hh]
      exact ⟨rfl, by decide, by decide, by decide⟩
  · obtain rfl := Option.some.inj h
    simp only [Bool.or_eq_true, decide_eq_true_eq, not_or] at h2
    exact ⟨rfl, h2.1.1, h2.1.2, h2.2⟩
  · obtain rfl := Option.some.inj h
    simp only [Bool.or_eq_true, decide_eq_true_eq, not_or] at h2
    exact ⟨rfl, h2.1.1, h2.1.2, h2.2⟩

lemma transform_foldl_filterMap (pt : String) :
    ∀ (headers acc : List (String × String)),
      (∀ p ∈ headers, ofStr (lowerStr p.1.data) = p.1) →
      (headers.map Prod.fst).Nodup →
      (∀ e ∈ headers, ∀ p ∈ acc, p.1 ≠ e.1) →
      headers.foldl (transformRequestHeaderStep pt) acc =
        acc ++ headers.filterMap (transformRequestEntry pt) := by
  intro headers
  induction headers with
  | nil =>
    intro acc _ _ _
    simp
  | cons e tl ih =>
    intro acc hlc hnd hfr
    rw [List.map_cons, List.nodup_cons] at hnd
    rw [List.foldl_cons,
      transformRequestHeaderStep_fresh pt acc e (hlc e (List.mem_cons_self _ _))
        (hfr e (List.mem_cons_self _ _))]
    have hfr2 : ∀ e2 ∈ tl, ∀ p ∈ acc ++ (transformRequestEntry pt e).toList, p.1 ≠ e2.1 := by
      intro e2 he2 p hp
      rcases List.mem_append.mp hp with hp1 | hp2
      · exact hfr e2 (List.mem_cons_of_mem _ he2) p hp1
      · cases hent : transformRequestEntry pt e with
        | none =>
          rw [hent] at hp2
          exact absurd hp2 (by simp)
        | some q =>
          rw [hent] at hp2
          rw [Option.toList_some, List.mem_singleton] at hp2
          subst hp2
          rw [(transformRequestEntry_some pt e p hent).1]
          intro hc
          exact hnd.1 (hc ▸ List.mem_map_of_mem Prod.fst he2)
    rw [ih (acc ++ (transformRequestEntry pt e).toList)
      (fun p hp => hlc p (List.mem_cons_of_mem _ hp)) hnd.2 hfr2]
    rw [List.filterMap_cons]
    cases hent : transformRequestEntry pt e with
    | none => simp
    | some q => simp

lemma lower_of_lowered (s : String) (h : ofStr (lowerStr s.data) = s) :
    lowerStr s.data = s.data := congrArg String.data h

lemma headersGet_filterMap_dropped (headers : List (String × String)) (pt : String)
    (hlc : ∀ p ∈ headers, ofStr (lowerStr p.1.data) = p.1)
    (bad : String) (hbadlow : lowerStr bad.data = bad.data)
    (hbad : ∀ e : String × String, e.1 = bad → transformRequestEntry pt e = none) :
    headersGet (headers.filterMap (transformRequestEntry pt)) bad = none := by
  unfold headersGet
  have hf : (headers.filterMap (transformRequestEntry pt)).find?
      (fun p => decide (lowerStr p.1.data = lowerStr bad.data)) = none := by
    rw [List.find?_eq_none]
    intro q hq hcon
    rcases List.mem_filterMap.mp hq with ⟨a, ha, hent⟩
    rw [decide_eq_true_eq, hbadlow] at hcon
    have hkey := (transformRequestEntry_some pt a q hent).1
    have hqlow : lowerStr q.1.data = q.1.data := by
      rw [hkey]
      exact lower_of_lowered a.1 (hlc a ha)
    rw [hqlow] at hcon
    have hA : a.1 = bad := by
      rw [← hkey]
      exact string_data_inj _ _ hcon
    rw [hbad a hA] at hent
    exact Option.noConfusion hent
  rw [hf]
  rfl

lemma headersGet_filterMap_mem (pt : String) :
    ∀ (headers : List (String × String)) (name v w : String),
      (∀ p ∈ headers, ofStr (lowerStr p.1.data) = p.1) →
      (headers.map Prod.fst).Nodup →
      (name, v) ∈ headers →
      transformRequestEntry pt (name, v) = some (name, w) →
      headersGet (headers.filterMap (transformRequestEntry pt)) name = some w := by
  intro headers
  induction headers with
  | nil =>
    intro name v w _ _ hm _
    exact absurd hm (by simp)
  | cons e tl ih =>
    intro name v w hlc hnd hm hent
    rw [List.map_cons, List.nodup_cons] at hnd
    rcases List.mem_cons.mp hm with he | htl
    · subst he
      rw [List.filterMap_cons, hent]
      unfold headersGet
      rw [List.find?_cons_of_pos _ (by simp)]
      rfl
    · have hne : e.1 ≠ name := by
        intro hc
        exact hnd.1 (hc ▸ List.mem_map_of_mem Prod.fst htl)
      have hrec := ih name v w (fun p hp => hlc p (List.mem_cons_of_mem _ hp)) hnd.2 htl hent
      rw [List.filterMap_cons]
      cases hente : transformRequestEntry pt e with
      | none => exact hrec
      | some q =>
        have hkey := (transformRequestEntry_some pt e q hente).1
        unfold headersGet
        rw [List.find?_cons_of_neg]
        · exact hrec
        · simp only [decide_eq_true_eq]
          intro hc
          rw [hkey, lower_of_lowered e.1 (hlc e (List.mem_cons_self _ _)),
            lower_of_lowered name (hlc (name, v) hm)] at hc
          exact hne (string_data_inj _ _ hc)

/-- Claim C5, counterexample: forwarding the cookie header
`_proxyTargets=x` strips one underscore and produces `proxyTargets=x`, so
the forwarded cookie header DOES contain a cookie named `proxyTargets`,
contradicting the claim's first cookie conjunct. -/
theorem claim_C5_counterexample :
    headersGet (transformHeadersForRequest [("cookie", "_proxyTargets=x")] "t.example")
      "cookie" = some "proxyTargets=x" ∧
    cookieNameOf (strTrim "proxyTargets=x".data) = "proxyTargets".data :=
  ⟨by decide, by decide⟩

/-- Claim C5, amended: for lower-cased, duplicate-free request headers (as
express delivers them), the translated outbound headers are the per-entry
transform: `content-length`, `content-encoding` and `transfer-encoding` are
absent from the result; within the cookie header, an inbound cookie named
`proxyTargets` is dropped and a cookie named `_+proxyTargets` is forwarded
with exactly one leading underscore removed (so forwarding CAN produce a
cookie named `proxyTargets` — see the counterexample), all other cookies
are forwarded trimmed-unchanged; the whole cookie header is forwarded as
the joined transformed parts; and all other headers are forwarded
unchanged. -/
theorem claim_C5_request_headers (headers : List (String × String)) (pt : String)
    (hlc : ∀ p ∈ headers, ofStr (lowerStr p.1.data) = p.1)
    (hnd : (headers.map Prod.fst).Nodup) :
    transformHeadersForRequest headers pt = headers.filterMap (transformRequestEntry pt) ∧
    headersGet (transformHeadersForRequest headers pt) "content-length" = none ∧
    headersGet (transformHeadersForRequest headers pt) "content-encoding" = none ∧
    headersGet (transformHeadersForRequest headers pt) "transfer-encoding" = none ∧
    (∀ c : Str, cookieNameOf (strTrim c) = "proxyTargets".data → cookieForwardRule c = []) ∧
    (∀ c : Str, isUnderscoreProxyTargets (cookieNameOf (strTrim c)) = true →
      cookieForwardRule c = (strTrim c).drop 1) ∧
    (∀ c : Str, cookieNameOf (strTrim c) ≠ "proxyTargets".data →
      isUnderscoreProxyTargets (cookieNameOf (strTrim c)) = false →
      cookieForwardRule c = strTrim c) ∧
    (∀ v : String, ("cookie", v) ∈ headers →
      headersGet (transformHeadersForRequest headers pt) "cookie" =
        some (cookieHeaderForward v)) ∧
    (∀ (name v : String), (name, v) ∈ headers →
      name ≠ "host" → name ≠ "origin" → name ≠ "content-length" →
      name ≠ "content-encoding" → name ≠ "transfer-encoding" → name ≠ "cookie" →
      headersGet (transformHeadersForRequest headers pt) name = some v) := by
  have hchar : transformHeadersForRequest headers pt =
      headers.filterMap (transformRequestEntry pt) :=
    transform_foldl_filterMap pt headers [] hlc hnd (by simp)
  refine ⟨hchar, ?_, ?_, ?_, ?_, ?_, ?_, ?_, ?_⟩
  · rw [hchar]
    exact headersGet_filterMap_dropped headers pt hlc "content-length" (by decide)
      (fun e he => by simp [transformRequestEntry, he])
  · rw [hchar]
    exact headersGet_filterMap_dropped headers pt hlc "content-encoding" (by decide)
      (fun e he => by simp [transformRequestEntry, he])
  · rw [hchar]
    exact headersGet_filterMap_dropped headers pt hlc "transfer-encoding" (by decide)
      (fun e he => by simp [transformRequestEntry, he])
  · intro c h
    simp [cookieForwardRule, h]
  · intro c h
    have hne : cookieNameOf (strTrim c) ≠ "proxyTargets".data := by
      intro hc
      rw [hc] at h
      exact absurd h (by decide)
    simp [cookieForwardRule, hne, h]
  · intro c h1 h2
    simp [cookieForwardRule, h1, h2]
  · intro v hv
    rw [hchar]
    exact headersGet_filterMap_mem pt headers "cookie" v (cookieHeaderForward v) hlc hnd hv
      (by simp [transformRequestEntry])
  · intro name v hv hn1 hn2 hn3 hn4 hn5 hn6
    rw [hchar]
    exact headersGet_filterMap_mem pt headers name v v hlc hnd hv
      (by simp [transformRequestEntry, hn1, hn2, hn3, hn4, hn5, hn6])

/-- Claim C5, witness: the amended theorem at a concrete two-header request
with a cookie. -/
theorem claim_C5_witness :
    transformHeadersForRequest [("cookie", "a=1"), ("accept", "vv")] "t" =
      [("cookie", "a=1"), ("accept", "vv")].filterMap (transformRequestEntry "t") ∧
    headersGet (transformHeadersForRequest [("cookie", "a=1"), ("accept", "vv")] "t")
      "cookie" = some (cookieHeaderForward "a=1") :=
  ⟨(claim_C5_request_headers [("cookie", "a=1"), ("accept", "vv")] "t" (by decide)
      (by decide)).1,
   (claim_C5_request_headers [("cookie", "a=1"), ("accept", "vv")] "t" (by decide)
      (by decide)).2.2.2.2.2.2.2.1 "a=1" (by simp)⟩

end Proxy
